import Mathlib

/-!
Verification development for the lanscatter master node
(src/lanscatter/masternode.py) and its file I/O helper
(src/lanscatter/fileio.py).

Shallow embedding conventions:
* JSON values on the wire are modelled by `JVal`.  Chunk hashes are opaque
  string tokens; a JSON array is modelled as an array of hash tokens
  (`strlist`), of numbers (`numlist`), or of download-report objects
  (`dicts`), which are the only array shapes the protocol uses.
* Python `dict.get` returning `None` is modelled with `Option`.
* Python exceptions inside the message handler are modelled with `Except`:
  the handler wrapper turns an exception into a non-fatal `error` frame,
  exactly like the `except Exception` block of `handle_client_msg`.
* `planner.py`, `fileserver.py`, `chunker.py` and `common.py` are not part
  of the provided sources; the operations of theirs that the master node
  calls (`Node.add_hashes`, `SwarmCoordinator.node_join`, `reset_hashes`,
  `set_active_transfers`, `update_transfer_speed`, `Node.destroy`,
  `FileServer.set_batch`, protocol version parsing) are modelled from the
  specification text and marked `Modelled from the spec:` below.
-/

/-- One entry of the `dls` list of a `report_transfers` message:
a JSON object with fields `hash`, `url`, `mbps_limit`; a missing field is
`none` (mirrors `dl.get(...)` returning `None`). -/
structure DlEntry where
  dhash : Option String
  url : Option String
  mbps : Option Int
deriving DecidableEq, Repr

/-- JSON-ish values carried by protocol messages (see conventions above). -/
inductive JVal where
  | null : JVal
  | int (n : Int) : JVal
  | str (s : String) : JVal
  | strlist (xs : List String) : JVal
  | numlist (xs : List Int) : JVal
  | dicts (xs : List DlEntry) : JVal
  | sdict (kvs : List (String × String)) : JVal
deriving DecidableEq, Repr

/-- A wire message: a JSON object, modelled as an association list.
`msg.get(k)` is association-list lookup. -/
def Msg : Type := List (String × JVal)

instance : DecidableEq Msg := by
  unfold Msg
  infer_instance

/-- `msg.get(key)`: `none` when the key is absent. -/
def msgGet (m : Msg) (k : String) : Option JVal :=
  match m.find? (fun p => p.1 = k) with
  | some p => some p.2
  | none => none

/-- Python truthiness of a JSON value (`if not action: ...` etc.). -/
def JVal.truthy : JVal → Bool
  | JVal.null => false
  | JVal.int n => decide (n ≠ 0)
  | JVal.str s => decide (s ≠ "")
  | JVal.strlist xs => !xs.isEmpty
  | JVal.numlist xs => !xs.isEmpty
  | JVal.dicts xs => !xs.isEmpty
  | JVal.sdict kvs => !kvs.isEmpty

/-- `isinstance(v, list)` for our JSON model. -/
def JVal.isPyList : JVal → Bool
  | JVal.strlist _ => true
  | JVal.numlist _ => true
  | JVal.dicts _ => true
  | _ => false

/-- Comparison of a JSON value against a string literal
(`action == 'version'` and friends). -/
def JVal.eqStr : JVal → String → Bool
  | JVal.str s, t => s = t
  | _, _ => false

/-- `v is None` on an optional lookup result: absent key or explicit null
(`None in (dls, ul_count, upload_times)`). -/
def optIsNone : Option JVal → Bool
  | none => true
  | some JVal.null => true
  | _ => false

/-- The list of hash tokens denoted by a JSON array, `none` when treating
the elements as set members would raise (python `set()` of unhashable
elements).  Numeric tokens are modelled by their decimal rendering. -/
def JVal.hashTokens : JVal → Option (List String)
  | JVal.strlist xs => some xs
  | JVal.numlist xs => some (xs.map (fun n => toString n))
  | JVal.dicts xs => if xs.isEmpty then some [] else none
  | _ => none

/-- The list of numeric durations denoted by a JSON value, `none` when
iterating it and comparing elements to 0 would raise a `TypeError`
(`update_transfer_speed` on a non-numeric list). -/
def JVal.numTokens : JVal → Option (List Int)
  | JVal.numlist xs => some xs
  | JVal.str s => if s = "" then some [] else none
  | JVal.strlist xs => if xs.isEmpty then some [] else none
  | JVal.dicts xs => if xs.isEmpty then some [] else none
  | JVal.sdict kvs => if kvs.isEmpty then some [] else none
  | _ => none

/-- The list of download-report entries denoted by the `dls` value, `none`
when iterating it with `dl.get(...)` would raise. -/
def JVal.dlEntries : JVal → Option (List DlEntry)
  | JVal.dicts xs => some xs
  | JVal.str s => if s = "" then some [] else none
  | JVal.strlist xs => if xs.isEmpty then some [] else none
  | JVal.numlist xs => if xs.isEmpty then some [] else none
  | JVal.sdict kvs => if kvs.isEmpty then some [] else none
  | _ => none

/-- Python `a < b` between JSON numbers; `TypeError` (as `Except.error`)
when either side is not a number. -/
def pyLt : JVal → JVal → Except String Bool
  | JVal.int a, JVal.int b => Except.ok (decide (a < b))
  | _, _ => Except.error "TypeError: unorderable types"

/-- One chunk of the authoritative batch (`chunker.FileChunk`): fields used
by the master are `hash`, `path`, `pos`, `size`.
Modelled from the spec: chunker.py is not among the provided sources. -/
structure FileChunk where
  hash : String
  path : String
  pos : Nat
  size : Nat
deriving DecidableEq, Repr

/-- The authoritative snapshot produced by the directory scanner.
Modelled from the spec: a Batch is an ordered list of chunks and has value
equality. -/
structure Batch where
  chunks : List FileChunk
deriving DecidableEq, Repr

/-- Frames the master enqueues to a peer (one constructor per outbound
`action`).  `fatal` frames sent through `error(..., fatal=True)` echo the
original message; the version-mismatch fatal frame does not. -/
inductive Frame where
  | fatal (message : String) (origMsg : Option Msg) : Frame
  | error (message : String) (origMsg : Msg) : Frame
  | ok (message : JVal) : Frame
  | rehash (message : String) (unknownHashes : Finset String) : Frame
  | newBatch (data : Batch) : Frame
  | initialBatch (data : Batch) (message : String) : Frame
  | download (hash : String) (url : String) : Frame
deriving DecidableEq

def Frame.isFatal : Frame → Bool
  | Frame.fatal _ _ => true
  | _ => false

def Frame.isDownload : Frame → Bool
  | Frame.download _ _ => true
  | _ => false

def Frame.isOk : Frame → Bool
  | Frame.ok _ => true
  | _ => false

def Frame.isInitialBatch : Frame → Bool
  | Frame.initialBatch _ _ => true
  | _ => false

/-- `l` starts with `pre` (list prefix test, executable). -/
def startsL {α : Type} [DecidableEq α] : List α → List α → Bool
  | _, [] => true
  | [], _ :: _ => false
  | a :: as, b :: bs => if a = b then startsL as bs else false

/-- `pre` occurs as a contiguous sublist of `l` (executable). -/
def subL {α : Type} [DecidableEq α] : List α → List α → Bool
  | [], pre => pre.isEmpty
  | a :: as, pre => startsL (a :: as) pre || subL as pre

/-- Python `needle in hay` on strings: substring containment. -/
def strContains (hay needle : String) : Bool :=
  subL hay.toList needle.toList

/-- `hay.startswith(needle)`: used only to state the resolution rule the
spec describes (matching the stripped template as a prefix). -/
def strStarts (hay needle : String) : Bool :=
  startsL hay.toList needle.toList

/-- Split a character list on the dot separator (`"1.4.1".split(".")`). -/
def splitDot : List Char → List (List Char)
  | [] => [[]]
  | c :: rest =>
    if c = '.' then [] :: splitDot rest
    else
      match splitDot rest with
      | h :: t => (c :: h) :: t
      | [] => [[c]]

/-- A non-empty all-digit component parsed as a numeral. -/
def parseNatChars (cs : List Char) : Option Nat :=
  if cs.isEmpty then none
  else if cs.all Char.isDigit then
    some (cs.foldl (fun acc c => acc * 10 + (c.toNat - 48)) 0)
  else none

/-- Modelled from the spec: `packaging.version.parse(...).release` for a
`MAJOR.MINOR.PATCH` protocol string — the dot-separated numeral components,
`none` when the string does not parse (`InvalidVersion`). -/
def parseRelease (s : String) : Option (List Nat) :=
  (splitDot s.toList).mapM parseNatChars

/-- `s.replace(pat, rep)` evaluated structurally (fuel is the length of the
subject, enough for the left-to-right non-overlapping scan). -/
def replaceFuel : Nat → List Char → List Char → List Char → List Char
  | 0, l, _, _ => l
  | _ + 1, [], _, _ => []
  | fuel + 1, c :: rest, pat, rep =>
    if startsL (c :: rest) pat && !pat.isEmpty then
      rep ++ replaceFuel fuel ((c :: rest).drop pat.length) pat rep
    else c :: replaceFuel fuel rest pat rep

/-- Python `s.replace(pat, rep)`. -/
def strReplace (s pat rep : String) : String :=
  String.mk (replaceFuel s.toList.length s.toList pat.toList rep.toList)

example : parseRelease "1.4.1" = some [1, 4, 1] := by decide
example : parseRelease "MISSING" = none := by decide
example : parseRelease "" = none := by decide
example : strContains "http://a/b{hash}" "{hash}" = true := by decide
example : strContains "xyz" "yz" = true := by decide
example : strStarts "xyz" "yz" = false := by decide
example : strReplace "http://x/{hash}" "{hash}" "" = "http://x/" := by decide

/-- Per-peer swarm record (`planner.Node`).
Modelled from the spec: planner.py is not among the provided sources; the
fields are the essential Node attributes of the data model (§3): claimed
hashes, transfer caps (kept as the raw JSON value the master passes to
`node_join`), active downloads keyed by (hash, sender id), upload count,
recent upload durations, and the out-edge `client.dl_url`.  `queue` models
the contents of `client.send_queue` as written by the master loop. -/
structure MNode where
  nodeId : Nat
  name : String
  isMaster : Bool
  hashes : Finset String
  maxDls : JVal
  maxUls : JVal
  activeDls : List ((String × Nat) × Int)
  ulCount : JVal
  ulTimes : List Int
  dlUrl : String
  queue : List Frame
deriving DecidableEq

/-- The master-side state touched by `handle_client_msg` and
`replace_sync_batch`: the authoritative batch (`file_server.batch`), the
swarm universe (`swarm.all_hashes`, as a set), the swarm node list, the id
allocator, the seed node id, the replan trigger, and the constants
`Defaults.PROTOCOL_VERSION` / `file_server.hostname`. -/
structure SrvState where
  protoVersion : String
  hostname : String
  batch : Option Batch
  univ : Finset String
  nodes : List MNode
  nextId : Nat
  seedId : Nat
  replan : Bool
deriving DecidableEq

/-- The per-session `PeerSession` record: `version` holds the release
components recorded on a successful version handshake, `node` the id of
the peer's swarm Node (if joined). -/
structure PeerState where
  address : String
  version : Option (List Nat)
  node : Option Nat
deriving DecidableEq

def findNode (srv : SrvState) (nid : Nat) : Option MNode :=
  srv.nodes.find? (fun n => n.nodeId = nid)

def updateNode (srv : SrvState) (nid : Nat) (f : MNode → MNode) : SrvState :=
  { srv with nodes := srv.nodes.map (fun n => if n.nodeId = nid then f n else n) }

def setReplan (srv : SrvState) : SrvState :=
  { srv with replan := true }

/-- Modelled from the spec: `Node.destroy()` marks the node not alive and
removes it from the swarm; the planner and broadcasts never see it again. -/
def destroyNode (srv : SrvState) (nid : Nat) : SrvState :=
  { srv with nodes := srv.nodes.filter (fun n => n.nodeId ≠ nid) }

/-- Modelled from the spec: `Node.add_hashes(hs, clear_first)` — if
`clear_first`, replace `hashes` with the intersection of `hs` and the swarm
universe, else union in (filtered against the universe, invariant 1);
return `hs \ universe`. -/
def addHashes (univ : Finset String) (nd : MNode) (hs : List String)
    (clearFirst : Bool) : MNode × Finset String :=
  let hsF := hs.toFinset
  let newH := if clearFirst then hsF ∩ univ else nd.hashes ∪ (hsF ∩ univ)
  ({ nd with hashes := newH }, hsF \ univ)

/-- Modelled from the spec: `SwarmCoordinator.node_join(initial_hashes,
max_dls, max_uls, master)` allocates a Node, filters the initial hashes
against the universe and appends it to the node list.  Returns the new
state and the new node id. -/
def nodeJoin (srv : SrvState) (initialHashes : List String)
    (maxDls maxUls : JVal) (master : Bool) : SrvState × Nat :=
  let nd : MNode :=
    { nodeId := srv.nextId, name := "", isMaster := master,
      hashes := initialHashes.toFinset ∩ srv.univ,
      maxDls := maxDls, maxUls := maxUls, activeDls := [],
      ulCount := JVal.int 0, ulTimes := [], dlUrl := "", queue := [] }
  ({ srv with nodes := srv.nodes ++ [nd], nextId := srv.nextId + 1 }, srv.nextId)

/-- Modelled from the spec: `Node.set_active_transfers(downloads,
n_uploads)` replaces `active_downloads` and sets the upload count.  (The
precise form of the invariant validation the spec mentions is not pinned
down by the provided sources and is not modelled.) -/
def setActiveTransfers (nd : MNode) (downloads : List ((String × Nat) × Int))
    (nUploads : JVal) : MNode :=
  { nd with activeDls := downloads, ulCount := nUploads }

/-- Modelled from the spec: `Node.update_transfer_speed(durations)` appends
each positive duration to the bounded window (size ~20). -/
def updateSpeed (nd : MNode) (ds : List Int) : MNode :=
  let w := nd.ulTimes ++ ds.filter (fun d => decide (0 < d))
  { nd with ulTimes := w.drop (w.length - 20) }

/-- The set of chunk hashes of a batch (`(c.hash for c in batch.chunks)`). -/
def chunkHashes (b : Batch) : Finset String :=
  (b.chunks.map (fun c => c.hash)).toFinset

/-- `n.client.dl_url.replace('{hash}', '')`. -/
def stripTemplate (n : MNode) : String :=
  strReplace n.dlUrl "{hash}" ""

/-- The matching test of `handle_client_msg` for a reported download url:
`n.client.dl_url.replace('{hash}', '') in dl['url']` — substring
containment (python `in`). -/
def dlMatches (u : String) (n : MNode) : Bool :=
  strContains u (stripTemplate n)

/-- The first node of the swarm list whose stripped url template occurs in
the reported url (the inner `for n in self.swarm.nodes: ... break`). -/
def firstMatch (nodes : List MNode) (u : String) : Option MNode :=
  nodes.find? (dlMatches u)

/-- Resolution rule as the spec words it: the stripped template must be a
*prefix* of the reported url.  Stated only to compare against the code. -/
def dlMatchesSpec (u : String) (n : MNode) : Bool :=
  strStarts u (stripTemplate n)

/-- First node matching under the spec's prefix rule. -/
def firstMatchSpec (nodes : List MNode) (u : String) : Option MNode :=
  nodes.find? (dlMatchesSpec u)

/-- Python dict insertion `cur_downloads[(chunk_id, n)] = mbps_limit`:
update in place if the key exists, else append. -/
def dinsert (acc : List ((String × Nat) × Int)) (k : String × Nat) (v : Int) :
    List ((String × Nat) × Int) :=
  if acc.any (fun p => p.1 = k) then
    acc.map (fun p => if p.1 = k then (k, v) else p)
  else acc ++ [(k, v)]

/-- The `for dl in dls` loop of the `report_transfers` branch: build the
`cur_downloads` dict; a malformed entry (missing field) aborts with the
non-fatal "Malformed dl entry" error (`Except.error ()`); an entry whose
url matches no node is skipped (only logged). -/
def buildDlAux (nodes : List MNode) (acc : List ((String × Nat) × Int)) :
    List DlEntry → Except Unit (List ((String × Nat) × Int))
  | [] => Except.ok acc
  | e :: rest =>
    match e.dhash, e.url, e.mbps with
    | some h, some u, some m =>
      match firstMatch nodes u with
      | some n => buildDlAux nodes (dinsert acc (h, n.nodeId) m) rest
      | none => buildDlAux nodes acc rest
    | _, _, _ => Except.error ()

/-- Result of handling one client message: updated server and peer state
plus the frames enqueued (in order) onto this peer's `sendq`. -/
structure HRes where
  srv : SrvState
  peer : PeerState
  frames : List Frame
deriving DecidableEq

/-- A python exception escaping the per-action code: carries the state and
frames accumulated before the raise and the exception text. -/
structure HExn where
  srv : SrvState
  peer : PeerState
  frames : List Frame
  txt : String
deriving DecidableEq

/-- `(msg.get(k) or <falsy>)` view: the value at `k`, `null` if absent. -/
def pyGet (m : Msg) (k : String) : JVal :=
  (msgGet m k).getD JVal.null

/-- Version branch, after parsing: an unparsable or empty release is
answered with a fatal frame echoing the message (`error(..., fatal=True)`),
a MAJOR mismatch with a direct fatal frame (no echo); otherwise reply `ok`
and record the release in `peer.version` (masternode.py:113-124). -/
def versionCheckRel (srv : SrvState) (peer : PeerState) (msg : Msg)
    (hrel : List Nat) : Option (List Nat) → Except HExn HRes
  | none =>
    Except.ok ⟨srv, peer, [Frame.fatal "Invalid protocol version." (some msg)]⟩
  | some rel =>
    if rel.isEmpty then
      Except.ok ⟨srv, peer, [Frame.fatal "Invalid protocol version." (some msg)]⟩
    else if rel.head? ≠ hrel.head? then
      Except.ok ⟨srv, peer, [Frame.fatal "Incompatible protocol." none]⟩
    else
      Except.ok ⟨srv, { peer with version := some rel },
        [Frame.ok (JVal.sdict [("message", "Version accepted.")])]⟩

/-- Version branch on the (falsy-defaulted) `protocol` value: a non-string
truthy value makes `packaging.version.parse` raise a `TypeError`. -/
def versionCheckVal (srv : SrvState) (peer : PeerState) (msg : Msg)
    (hrel : List Nat) : JVal → Except HExn HRes
  | JVal.str s => versionCheckRel srv peer msg hrel (parseRelease s)
  | _ => Except.error ⟨srv, peer, [], "TypeError: expected string version"⟩

/-- The `action == 'version'` branch of `handle_client_msg`
(masternode.py:110-126): parse the master's own `PROTOCOL_VERSION`, then
the peer's `protocol` field (a falsy value becomes the unparsable string
MISSING). -/
def handleVersion (srv : SrvState) (peer : PeerState) (msg : Msg) :
    Except HExn HRes :=
  match parseRelease srv.protoVersion with
  | none => Except.error ⟨srv, peer, [], "InvalidVersion"⟩
  | some hrel =>
    versionCheckVal srv peer msg hrel
      (if (pyGet msg "protocol").truthy then pyGet msg "protocol" else JVal.str "MISSING")

/-- `if peer.node: peer.node.destroy()` before a rejoin. -/
def destroyOld (srv : SrvState) : Option Nat → SrvState
  | some nid => destroyNode srv nid
  | none => srv

/-- Tail of the join branch (masternode.py:159-162): `ok` then the batch
frame and the replan trigger; with no batch yet, `__make_batch_msg` raises
after the `ok` frame was already enqueued. -/
def joinFinish (srv2 : SrvState) (peer2 : PeerState) : Option Batch → Except HExn HRes
  | none =>
    Except.error ⟨srv2, peer2, [Frame.ok (JVal.str "Joined swarm.")], "AttributeError: NoneType batch"⟩
  | some b =>
    Except.ok ⟨setReplan srv2, peer2, [Frame.ok (JVal.str "Joined swarm."), Frame.newBatch b]⟩

/-- Node creation of the join branch (masternode.py:147-158): the old Node
(already destroyed in `srv1`) is replaced by `node_join(initial_hashes,
dl_slots, dl_slots)`; the node gets its nick (display only) and
`client = (dl_url, send_queue)`. -/
def joinCreate (srv1 : SrvState) (peer : PeerState) (msg : Msg)
    (dlUrl : String) (dlSlots : JVal) : Option (List String) → Except HExn HRes
  | none => Except.error ⟨srv1, peer, [], "TypeError: unhashable type"⟩
  | some hs =>
    let jr := nodeJoin srv1 hs dlSlots dlSlots false
    let nickV := pyGet msg "nick"
    let nick :=
      if nickV.truthy then
        match nickV with
        | JVal.str s => s
        | _ => ""
      else srv1.hostname
    let srv2 := updateNode jr.1 jr.2 (fun nd => { nd with name := nick, dlUrl := dlUrl })
    let peer2 := { peer with node := some jr.2 }
    joinFinish srv2 peer2 srv2.batch

/-- Join branch on the (truthy) `dl_url` value: it must be a string
containing `http` and the `{hash}` placeholder (a non-string truthy value
raises in `in`); the version handshake must have happened; then the
previous Node (if any) is destroyed and the new Node joins. -/
def joinUrlVal (srv : SrvState) (peer : PeerState) (msg : Msg)
    (dlSlots : JVal) : JVal → Except HExn HRes
  | JVal.str dlUrl =>
    if !strContains dlUrl "http" then
      Except.ok ⟨srv, peer, [Frame.error "dl_url argument missing or invalid." msg]⟩
    else if !strContains dlUrl "{hash}" then
      Except.ok ⟨srv, peer, [Frame.error "dl_url must contain placeholder." msg]⟩
    else if peer.version.isNone then
      Except.ok ⟨srv, peer, [Frame.error "Protocol error: must check version before joining" msg]⟩
    else
      joinCreate (destroyOld srv peer.node) peer msg dlUrl dlSlots
        (pyGet msg "hashes").hashTokens
  | _ => Except.error ⟨srv, peer, [], "TypeError: argument not iterable"⟩

/-- The `action == 'join_swarm'` branch (masternode.py:131-162): a falsy
`concurrent_transfers` defaults to 2 (no further validation); `hashes`
must be a list; `dl_url` must be truthy. -/
def handleJoin (srv : SrvState) (peer : PeerState) (msg : Msg) :
    Except HExn HRes :=
  let ctV := pyGet msg "concurrent_transfers"
  let dlSlots := if ctV.truthy then ctV else JVal.int 2
  if !(pyGet msg "hashes").isPyList then
    Except.ok ⟨srv, peer, [Frame.error "hashes argument missing or invalid." msg]⟩
  else if !(pyGet msg "dl_url").truthy then
    Except.ok ⟨srv, peer, [Frame.error "dl_url argument missing or invalid." msg]⟩
  else joinUrlVal srv peer msg dlSlots (pyGet msg "dl_url")

/-- `set_hashes` / `add_hashes` on the reported token list:
`add_hashes(hashes, clear_first)` runs, the replan trigger is set, `ok` is
enqueued, and if any reported hash was unknown a `rehash` frame listing
the unknown set follows (masternode.py:173-183). -/
def hashesRun (srv : SrvState) (peer : PeerState) (msg : Msg)
    (clearFirst : Bool) (nd : MNode) : Option (List String) → Except HExn HRes
  | none => Except.error ⟨srv, peer, [], "TypeError: unhashable type"⟩
  | some hs =>
    let res := addHashes srv.univ nd hs clearFirst
    let srv2 := setReplan (updateNode srv nd.nodeId (fun _ => res.1))
    if res.2 = ∅ then
      Except.ok ⟨srv2, peer, [Frame.ok (JVal.str "Hashes updated")]⟩
    else
      Except.ok ⟨srv2, peer,
        [Frame.ok (JVal.str "Hashes updated"),
         Frame.rehash "You reported hashes not belonging to the swarm." res.2]⟩

/-- `set_hashes` / `add_hashes` with the Node resolved ("Join the swarm
first." when there is none). -/
def hashesWithNode (srv : SrvState) (peer : PeerState) (msg : Msg)
    (clearFirst : Bool) : Option MNode → Except HExn HRes
  | none => Except.ok ⟨srv, peer, [Frame.error "Join the swarm first." msg]⟩
  | some nd => hashesRun srv peer msg clearFirst nd (pyGet msg "hashes").hashTokens

/-- The `set_hashes` / `add_hashes` branch (masternode.py:167-183):
`hashes` must be a list and the peer must have a Node. -/
def handleHashes (srv : SrvState) (peer : PeerState) (msg : Msg)
    (clearFirst : Bool) : Except HExn HRes :=
  if !(pyGet msg "hashes").isPyList then
    Except.ok ⟨srv, peer, [Frame.error "Must have list in arg hashes" msg]⟩
  else hashesWithNode srv peer msg clearFirst (peer.node.bind (findNode srv))

/-- `len(dls) < max_concurrent_dls` replan test (masternode.py:212-215). -/
def reportCmp2 (srv2 : SrvState) (peer : PeerState) : Except String Bool → Except HExn HRes
  | Except.error t => Except.error ⟨srv2, peer, [], t⟩
  | Except.ok b2 =>
    Except.ok ⟨(if b2 then setReplan srv2 else srv2), peer,
      [Frame.ok (JVal.str "Transfer status updated")]⟩

/-- `ul_count < max_concurrent_uls` replan test (short-circuit `or`). -/
def reportCmp1 (srv2 : SrvState) (peer : PeerState) (nDls : Nat)
    (maxDls : JVal) : Except String Bool → Except HExn HRes
  | Except.error t => Except.error ⟨srv2, peer, [], t⟩
  | Except.ok b1 =>
    if b1 then
      Except.ok ⟨setReplan srv2, peer, [Frame.ok (JVal.str "Transfer status updated")]⟩
    else reportCmp2 srv2 peer (pyLt (JVal.int nDls) maxDls)

/-- `update_transfer_speed(upload_times)` and the replan tests; a
non-numeric duration list raises after the active transfers were already
replaced. -/
def reportSpeed (srv : SrvState) (peer : PeerState) (nd1 : MNode)
    (ulcV : JVal) (nDls : Nat) : Option (List Int) → Except HExn HRes
  | none =>
    Except.error ⟨updateNode srv nd1.nodeId (fun _ => nd1), peer, [], "TypeError: bad durations"⟩
  | some ds =>
    let nd2 := updateSpeed nd1 ds
    let srv2 := updateNode srv nd2.nodeId (fun _ => nd2)
    reportCmp1 srv2 peer nDls nd2.maxDls (pyLt ulcV nd2.maxUls)

/-- The `cur_downloads` resolution outcome: a malformed entry aborts with
the non-fatal "Malformed dl entry" error; otherwise
`set_active_transfers(cur_downloads, ul_count)` runs. -/
def reportBuilt (srv : SrvState) (peer : PeerState) (msg : Msg) (nd : MNode)
    (ulcV ultV : JVal) (entries : List DlEntry) :
    Except Unit (List ((String × Nat) × Int)) → Except HExn HRes
  | Except.error _ => Except.ok ⟨srv, peer, [Frame.error "Malformed dl entry" msg]⟩
  | Except.ok cur =>
    let nd1 := setActiveTransfers nd cur ulcV
    reportSpeed srv peer nd1 ulcV entries.length ultV.numTokens

/-- `report_transfers` once the `dls` value is iterated (`dl.get` on a
non-dict element raises). -/
def reportEntries (srv : SrvState) (peer : PeerState) (msg : Msg)
    (nd : MNode) : Option (List DlEntry) → Except HExn HRes
  | none => Except.error ⟨srv, peer, [], "AttributeError: no attribute get"⟩
  | some entries =>
    reportBuilt srv peer msg nd (pyGet msg "ul_count") (pyGet msg "ul_times")
      entries (buildDlAux srv.nodes [] entries)

/-- `report_transfers` with the Node resolved. -/
def reportWithNode (srv : SrvState) (peer : PeerState) (msg : Msg) :
    Option MNode → Except HExn HRes
  | none => Except.ok ⟨srv, peer, [Frame.error "Join the swarm first." msg]⟩
  | some nd => reportEntries srv peer msg nd (pyGet msg "dls").dlEntries

/-- The `report_transfers` branch (masternode.py:188-215): `dls`,
`ul_count` and `ul_times` must all be non-None and the peer must have a
Node; the `cur_downloads` dict is built by resolving each entry url
against the node list (first match wins, unmatched entries only logged);
the node active transfers and speed window are updated; the replan
trigger fires when an upload or download slot is free; reply `ok`. -/
def handleReport (srv : SrvState) (peer : PeerState) (msg : Msg) :
    Except HExn HRes :=
  if optIsNone (msgGet msg "dls") || optIsNone (msgGet msg "ul_count")
      || optIsNone (msgGet msg "ul_times") then
    Except.ok ⟨srv, peer, [Frame.error "Missing args." msg]⟩
  else reportWithNode srv peer msg (peer.node.bind (findNode srv))

/-- Dispatch of `handle_client_msg` (masternode.py:102-220): a falsy or
missing `action` is fatal; the five known actions dispatch to their
branches; an `error` action is only logged; any other action is fatal
("Unknown action. Bad protocol. Goodbye."), regardless of session state. -/
def handleCore (srv : SrvState) (peer : PeerState) (msg : Msg) :
    Except HExn HRes :=
  let actionV := pyGet msg "action"
  if !actionV.truthy then
    Except.ok ⟨srv, peer, [Frame.fatal "Messages must have action. Bad protocol. Goodbye." (some msg)]⟩
  else if actionV.eqStr "version" then handleVersion srv peer msg
  else if actionV.eqStr "join_swarm" then handleJoin srv peer msg
  else if actionV.eqStr "set_hashes" then handleHashes srv peer msg true
  else if actionV.eqStr "add_hashes" then handleHashes srv peer msg false
  else if actionV.eqStr "report_transfers" then handleReport srv peer msg
  else if actionV.eqStr "error" then Except.ok ⟨srv, peer, []⟩
  else Except.ok ⟨srv, peer, [Frame.fatal "Unknown action. Bad protocol. Goodbye." (some msg)]⟩

/-- `handle_client_msg` including its `except Exception` wrapper: an
exception keeps the mutations made before the raise and appends a
non-fatal `error` frame echoing the message. -/
def handleClientMsg (srv : SrvState) (peer : PeerState) (msg : Msg) : HRes :=
  match handleCore srv peer msg with
  | Except.ok r => r
  | Except.error e =>
    ⟨e.srv, e.peer, e.frames ++ [Frame.error ("Exception raised: " ++ e.txt) msg]⟩

/-- The send loop of a peer session (masternode.py:275-284): frames are
delivered in queue order; when a `fatal` frame has been sent the websocket
is closed and nothing further is delivered.  Returns the delivered frames
and whether the session was closed. -/
def deliverLoop : List Frame → List Frame × Bool
  | [] => ([], false)
  | f :: rest =>
    if f.isFatal then ([f], true)
    else
      let r := deliverLoop rest
      (f :: r.1, r.2)

/-- State of a sequential session run: server and peer state, every frame
enqueued so far, and whether the socket was closed by a fatal frame. -/
structure RunState where
  srv : SrvState
  peer : PeerState
  out : List Frame
  closed : Bool
deriving DecidableEq

/-- One inbound message in the sequential session model: once a fatal
frame has been emitted the session is closed and later messages are not
processed (the send loop, which waits on the queue, delivers the fatal
frame and closes the websocket; the read loop then terminates). -/
def stepSession (rs : RunState) (m : Msg) : RunState :=
  if rs.closed then rs
  else
    let r := handleClientMsg rs.srv rs.peer m
    ⟨r.srv, r.peer, rs.out ++ r.frames, r.frames.any Frame.isFatal⟩

/-- A whole post-welcome session: the inbound messages processed in
arrival order. -/
def runSession (srv : SrvState) (peer : PeerState) (msgs : List Msg) : RunState :=
  msgs.foldl stepSession ⟨srv, peer, [], false⟩

/-- `MasterNode.replace_sync_batch` (masternode.py:65-79): an unchanged
batch is a no-op; otherwise the file server gets the new batch, the swarm
universe is reset to the new chunk hashes (`reset_hashes` intersects every
node's hashes with the new universe), the seed node gets
`add_hashes(all_hashes, clear_first=True)`, every non-seed node's send
queue receives the `new_batch` frame, and the replan trigger is set. -/
def replaceSyncBatch (st : SrvState) (nb : Batch) : SrvState :=
  if st.batch = some nb then st
  else
    let newU := chunkHashes nb
    let reset := st.nodes.map (fun n => { n with hashes := n.hashes ∩ newU })
    let seeded := reset.map (fun n =>
      if n.nodeId = st.seedId then
        (addHashes newU n (nb.chunks.map (fun c => c.hash)) true).1
      else n)
    let bcast := seeded.map (fun n =>
      if n.nodeId ≠ st.seedId then { n with queue := n.queue ++ [Frame.newBatch nb] } else n)
    { st with batch := some nb, univ := newU, nodes := bcast, replan := true }

/-- The "hold on" frame of the `welcome()` task (masternode.py:289). -/
def holdOkA : Frame :=
  Frame.ok (JVal.str "Hold on. Master is doing initial file scan.")

/-- The "hold on" frame of the read loop before the welcome task finished
(masternode.py:317-318). -/
def holdOkB : Frame :=
  Frame.ok (JVal.str "Hold on. Master is still doing initial file scan.")

/-- The `initial_batch` welcome frame (masternode.py:293-296). -/
def welcomeFrame (b : Batch) : Frame :=
  Frame.initialBatch b "Welcome. Hash your files against this and join_swarm when ready to sync."

/-- The bad-JSON fatal frame (masternode.py:320). -/
def badJsonFrame : Frame :=
  Frame.fatal "Protocol error. Bad JSON. Goodbye." none

/-- State of one peer session (`http_handler__start_websocket`): the server
state, the `PeerSession` record, every frame ever enqueued onto `sendq`
(oldest first), how many of them the send loop has delivered, whether the
`welcome()` task has completed, and whether the websocket is closed. -/
structure Sess where
  srv : SrvState
  peer : PeerState
  frames : List Frame
  delivered : Nat
  welcomeDone : Bool
  closed : Bool

/-- A fresh session: `PeerSession(node=None, version=None, sendq=Queue())`
(masternode.py:268). -/
def sessInit (srv0 : SrvState) (addr : String) : Sess :=
  ⟨srv0, ⟨addr, none, none⟩, [], 0, false, false⟩

/-- The concurrently scheduled events of one peer session
(masternode.py:264-343), as an interleaving transition relation:
* `srvUpdate` — any master-loop effect on the shared server state (batch
  assimilation, planner bookkeeping); it touches neither the session queue
  nor the peer record.
* `welcomeHold` / `welcomeFinish` — the `welcome()` task: while no batch
  exists it enqueues a hold-on `ok`; once a batch exists it enqueues the
  `initial_batch` frame and completes.
* `recvEarly` — a TEXT frame arriving before `welcome_task.done()`: only a
  hold-on `ok` is enqueued (the payload is not even parsed).
* `recvMsg` / `recvBadJson` — a TEXT frame after the welcome finished:
  `handle_client_msg` runs (or the bad-JSON fatal frame is enqueued).
* `plannerDl` — the planner loop enqueues a `download` onto
  `t.to_node.client.send_queue`; that queue is reachable only through the
  Node created by `join_swarm`, hence the guard `peer.node.isSome`.
* `masterBcast` — `replace_sync_batch` broadcasts `new_batch` through the
  same per-Node queue reference, hence the same guard.
* `deliver` — the send loop forwards the next queued frame; delivering a
  fatal frame closes the websocket. -/
inductive SessStep : Sess → Sess → Prop where
  | srvUpdate (s : Sess) (srv2 : SrvState) :
      SessStep s { s with srv := srv2 }
  | welcomeHold (s : Sess) :
      s.welcomeDone = false → s.srv.batch = none →
      SessStep s { s with frames := s.frames ++ [holdOkA] }
  | welcomeFinish (s : Sess) (b : Batch) :
      s.welcomeDone = false → s.srv.batch = some b →
      SessStep s { s with frames := s.frames ++ [welcomeFrame b], welcomeDone := true }
  | recvEarly (s : Sess) :
      s.closed = false → s.welcomeDone = false →
      SessStep s { s with frames := s.frames ++ [holdOkB] }
  | recvMsg (s : Sess) (m : Msg) :
      s.closed = false → s.welcomeDone = true →
      SessStep s { s with srv := (handleClientMsg s.srv s.peer m).srv,
                          peer := (handleClientMsg s.srv s.peer m).peer,
                          frames := s.frames ++ (handleClientMsg s.srv s.peer m).frames }
  | recvBadJson (s : Sess) :
      s.closed = false → s.welcomeDone = true →
      SessStep s { s with frames := s.frames ++ [badJsonFrame] }
  | plannerDl (s : Sess) (h u : String) :
      s.peer.node.isSome = true →
      SessStep s { s with frames := s.frames ++ [Frame.download h u] }
  | masterBcast (s : Sess) (b : Batch) :
      s.peer.node.isSome = true →
      SessStep s { s with frames := s.frames ++ [Frame.newBatch b] }
  | deliver (s : Sess) :
      s.closed = false → s.delivered < s.frames.length →
      SessStep s { s with delivered := s.delivered + 1,
                          closed := (s.frames.getD s.delivered (Frame.ok JVal.null)).isFatal }

/-- Reachable session states, from a fresh websocket upgrade. -/
inductive SessReach (srv0 : SrvState) (addr : String) : Sess → Prop where
  | init : SessReach srv0 addr (sessInit srv0 addr)
  | step {s t : Sess} : SessReach srv0 addr s → SessStep s t → SessReach srv0 addr t

/-- The first queued frame, if any, is an `ok` or the `initial_batch`. -/
def firstFrameOk : List Frame → Bool
  | [] => true
  | f :: _ => f.isOk || f.isInitialBatch

/-- No `download` frame occurs before the first `initial_batch` frame. -/
def noDlBeforeInit (l : List Frame) : Bool :=
  (l.takeWhile (fun f => !f.isInitialBatch)).all (fun f => !f.isDownload)

/-- Some `initial_batch` frame has been enqueued. -/
def hasInit (l : List Frame) : Bool :=
  l.any Frame.isInitialBatch

/-- The path model for `FileIO` (fileio.py): an absolute path is its list
of components below the filesystem root.  `Path.resolve()` is modelled by
left-to-right normalization of `.`, empty and `..` components (symbolic
links are not modelled). -/
def normStep (acc : List String) (c : String) : List String :=
  if c = "." || c = "" then acc
  else if c = ".." then acc.dropLast
  else acc ++ [c]

/-- Normalization of a component list from the root. -/
def normComponents (cs : List String) : List String :=
  List.foldl normStep [] cs

/-- `(self.basedir / relative_path).resolve()`: `self.basedir` was resolved
in `__init__`, and resolving the joined path continues the normalization
from the resolved base. -/
def resolvedPath (basedir rel : List String) : List String :=
  List.foldl normStep (normComponents basedir) rel

/-- `self.basedir in p.parents`: the base is a strict ancestor of `p`. -/
def strictlyInside (base p : List String) : Bool :=
  startsL p base && decide (p ≠ base)

/-- The two exceptions `resolve_and_sanitize` can raise. -/
inductive FErr where
  | permission : FErr
  | notFound : FErr
deriving DecidableEq

/-- `FileIO.resolve_and_sanitize(relative_path, must_exist)`
(fileio.py:38-49): resolve the joined path; `PermissionError` unless the
basedir is a strict ancestor of the result; `FileNotFoundError` when
`must_exist` and the path does not exist (existence is supplied as the
predicate `pathExists`). -/
def resolveAndSanitize (basedir rel : List String) (mustExist : Bool)
    (pathExists : List String → Bool) : Except FErr (List String) :=
  let base := normComponents basedir
  let p := resolvedPath basedir rel
  if !strictlyInside base p then Except.error FErr.permission
  else if mustExist && !pathExists p then Except.error FErr.notFound
  else Except.ok p

/-- File operations `copy_chunk_locally` would perform after its guards. -/
inductive FileOp where
  | openRead (path : String) (pos : Nat) : FileOp
  | openWrite (path : String) (pos : Nat) : FileOp
deriving DecidableEq

/-- `FileIO.copy_chunk_locally(copy_from, copy_to)` (fileio.py:152-173) up
to its first file operation: same path and position returns `True`
immediately (no file touched, hashes not compared); otherwise differing
hashes raise `ValueError` before any open; otherwise the copy proceeds
(opening source then target; the python function then returns `None`). -/
def copyChunkLocally (copyFrom copyTo : FileChunk) :
    Except String (Option Bool) × List FileOp :=
  if copyFrom.path = copyTo.path ∧ copyFrom.pos = copyTo.pos then
    (Except.ok (some true), [])
  else if copyFrom.hash ≠ copyTo.hash then
    (Except.error "From and To chunks must have same hash.", [])
  else
    (Except.ok none,
     [FileOp.openRead copyFrom.path copyFrom.pos,
      FileOp.openWrite copyTo.path copyTo.pos])

lemma firstFrameOk_append (l xs : List Frame) (h : l ≠ []) :
    firstFrameOk (l ++ xs) = firstFrameOk l := by
  cases l with
  | nil => exact absurd rfl h
  | cons f t => rfl

lemma firstFrameOk_take (l : List Frame) (d : Nat)
    (h : firstFrameOk l = true) : firstFrameOk (l.take d) = true := by
  cases l with
  | nil => simp [firstFrameOk]
  | cons f t =>
    cases d with
    | zero => rfl
    | succ d => simpa [firstFrameOk, List.take] using h

lemma hasInit_append_left (l xs : List Frame) (h : hasInit l = true) :
    hasInit (l ++ xs) = true := by
  simp only [hasInit, List.any_append, Bool.or_eq_true]
  exact Or.inl h

lemma noDlBeforeInit_of_all (l : List Frame)
    (h : l.all (fun f => !f.isDownload) = true) : noDlBeforeInit l = true := by
  induction l with
  | nil => rfl
  | cons f t ih =>
    simp only [List.all_cons, Bool.and_eq_true] at h
    by_cases hf : f.isInitialBatch = true
    · simp [noDlBeforeInit, List.takeWhile, hf]
    · simp only [Bool.not_eq_true] at hf
      simp only [noDlBeforeInit, List.takeWhile, hf, Bool.not_false, List.all_cons,
        Bool.and_eq_true]
      exact ⟨h.1, ih h.2⟩

lemma noDlBeforeInit_append_all (l xs : List Frame)
    (hl : noDlBeforeInit l = true)
    (hxs : xs.all (fun f => !f.isDownload) = true) :
    noDlBeforeInit (l ++ xs) = true := by
  induction l with
  | nil => simpa using noDlBeforeInit_of_all xs hxs
  | cons f t ih =>
    by_cases hf : f.isInitialBatch = true
    · simp [noDlBeforeInit, List.takeWhile, hf]
    · simp only [Bool.not_eq_true] at hf
      simp only [noDlBeforeInit, List.takeWhile, hf, Bool.not_false, List.all_cons,
        Bool.and_eq_true] at hl ⊢
      exact ⟨hl.1, ih hl.2⟩

lemma noDlBeforeInit_append_hasInit (l xs : List Frame)
    (hl : noDlBeforeInit l = true) (hi : hasInit l = true) :
    noDlBeforeInit (l ++ xs) = true := by
  induction l with
  | nil => simp [hasInit] at hi
  | cons f t ih =>
    by_cases hf : f.isInitialBatch = true
    · simp [noDlBeforeInit, List.takeWhile, hf]
    · simp only [Bool.not_eq_true] at hf
      simp only [hasInit, List.any_cons, Bool.or_eq_true, hf] at hi
      simp only [noDlBeforeInit, List.takeWhile, hf, Bool.not_false, List.all_cons,
        Bool.and_eq_true] at hl ⊢
      refine ⟨hl.1, ?_⟩
      have := ih hl.2 (by simpa [hasInit] using hi.resolve_left (by simp))
      exact this

lemma stepSession_closed (rs : RunState) (m : Msg) (h : rs.closed = true) :
    stepSession rs m = rs := by
  simp [stepSession, h]

lemma foldl_stepSession_closed (rs : RunState) (l : List Msg)
    (h : rs.closed = true) : List.foldl stepSession rs l = rs := by
  induction l with
  | nil => rfl
  | cons m t ih => rw [List.foldl_cons, stepSession_closed rs m h, ih]

/-- All frames of a handler outcome (normal or exceptional) satisfy `p`. -/
def exFramesAll (p : Frame → Bool) : Except HExn HRes → Bool
  | Except.ok r => r.frames.all p
  | Except.error e => e.frames.all p

/-- The peer state of a handler outcome. -/
def exPeer : Except HExn HRes → PeerState
  | Except.ok r => r.peer
  | Except.error e => e.peer

/-- Neither a `download` nor an `initial_batch` frame. -/
def notDlInit (f : Frame) : Bool := !f.isDownload && !f.isInitialBatch

/-- Not a `fatal` frame. -/
def notFatal (f : Frame) : Bool := !f.isFatal

lemma all_imp {p q : Frame → Bool} (l : List Frame) (h : l.all p = true)
    (hpq : ∀ f, p f = true → q f = true) : l.all q = true := by
  simp only [List.all_eq_true] at h ⊢
  exact fun f hf => hpq f (h f hf)

lemma versionCheckRel_tame (srv : SrvState) (peer : PeerState) (msg : Msg)
    (hrel : List Nat) (o : Option (List Nat)) :
    exFramesAll notDlInit (versionCheckRel srv peer msg hrel o) = true := by
  cases o with
  | none => rfl
  | some rel =>
    simp only [versionCheckRel]
    split_ifs <;> rfl

lemma versionCheckVal_tame (srv : SrvState) (peer : PeerState) (msg : Msg)
    (hrel : List Nat) (v : JVal) :
    exFramesAll notDlInit (versionCheckVal srv peer msg hrel v) = true := by
  cases v with
  | str s => exact versionCheckRel_tame srv peer msg hrel _
  | null => rfl
  | int n => rfl
  | strlist xs => rfl
  | numlist xs => rfl
  | dicts xs => rfl
  | sdict kvs => rfl

lemma handleVersion_tame (srv : SrvState) (peer : PeerState) (msg : Msg) :
    exFramesAll notDlInit (handleVersion srv peer msg) = true := by
  unfold handleVersion
  cases parseRelease srv.protoVersion with
  | none => rfl
  | some hrel => exact versionCheckVal_tame srv peer msg hrel _

lemma joinFinish_tame (srv2 : SrvState) (peer2 : PeerState) (o : Option Batch) :
    exFramesAll (fun f => notDlInit f && notFatal f) (joinFinish srv2 peer2 o) = true := by
  cases o <;> rfl

lemma joinCreate_tame (srv1 : SrvState) (peer : PeerState) (msg : Msg)
    (dlUrl : String) (dlSlots : JVal) (o : Option (List String)) :
    exFramesAll (fun f => notDlInit f && notFatal f)
      (joinCreate srv1 peer msg dlUrl dlSlots o) = true := by
  cases o with
  | none => rfl
  | some hs => exact joinFinish_tame _ _ _

lemma joinUrlVal_tame (srv : SrvState) (peer : PeerState) (msg : Msg)
    (dlSlots : JVal) (v : JVal) :
    exFramesAll (fun f => notDlInit f && notFatal f)
      (joinUrlVal srv peer msg dlSlots v) = true := by
  cases v with
  | str dlUrl =>
    simp only [joinUrlVal]
    split_ifs <;> first
      | rfl
      | exact joinCreate_tame _ peer msg dlUrl dlSlots _
  | null => rfl
  | int n => rfl
  | strlist xs => rfl
  | numlist xs => rfl
  | dicts xs => rfl
  | sdict kvs => rfl

lemma handleJoin_tame (srv : SrvState) (peer : PeerState) (msg : Msg) :
    exFramesAll (fun f => notDlInit f && notFatal f) (handleJoin srv peer msg) = true := by
  unfold handleJoin
  split_ifs <;> first
    | rfl
    | exact joinUrlVal_tame srv peer msg _ _

lemma hashesRun_tame (srv : SrvState) (peer : PeerState) (msg : Msg)
    (clearFirst : Bool) (nd : MNode) (o : Option (List String)) :
    exFramesAll (fun f => notDlInit f && notFatal f)
      (hashesRun srv peer msg clearFirst nd o) = true := by
  cases o with
  | none => rfl
  | some hs =>
    simp only [hashesRun]
    split_ifs <;> rfl

lemma hashesWithNode_tame (srv : SrvState) (peer : PeerState) (msg : Msg)
    (clearFirst : Bool) (o : Option MNode) :
    exFramesAll (fun f => notDlInit f && notFatal f)
      (hashesWithNode srv peer msg clearFirst o) = true := by
  cases o with
  | none => rfl
  | some nd => exact hashesRun_tame srv peer msg clearFirst nd _

lemma handleHashes_tame (srv : SrvState) (peer : PeerState) (msg : Msg)
    (clearFirst : Bool) :
    exFramesAll (fun f => notDlInit f && notFatal f)
      (handleHashes srv peer msg clearFirst) = true := by
  unfold handleHashes
  split_ifs <;> first
    | rfl
    | exact hashesWithNode_tame srv peer msg clearFirst _

lemma reportCmp2_tame (srv2 : SrvState) (peer : PeerState) (r : Except String Bool) :
    exFramesAll (fun f => notDlInit f && notFatal f) (reportCmp2 srv2 peer r) = true := by
  cases r with
  | error t => rfl
  | ok b2 =>
    simp only [reportCmp2]
    split_ifs <;> rfl

lemma reportCmp1_tame (srv2 : SrvState) (peer : PeerState) (nDls : Nat)
    (maxDls : JVal) (r : Except String Bool) :
    exFramesAll (fun f => notDlInit f && notFatal f)
      (reportCmp1 srv2 peer nDls maxDls r) = true := by
  cases r with
  | error t => rfl
  | ok b1 =>
    simp only [reportCmp1]
    split_ifs <;> first
      | rfl
      | exact reportCmp2_tame _ _ _

lemma reportSpeed_tame (srv : SrvState) (peer : PeerState) (nd1 : MNode)
    (ulcV : JVal) (nDls : Nat) (o : Option (List Int)) :
    exFramesAll (fun f => notDlInit f && notFatal f)
      (reportSpeed srv peer nd1 ulcV nDls o) = true := by
  cases o with
  | none => rfl
  | some ds => exact reportCmp1_tame _ _ _ _ _

lemma reportBuilt_tame (srv : SrvState) (peer : PeerState) (msg : Msg)
    (nd : MNode) (ulcV ultV : JVal) (entries : List DlEntry)
    (r : Except Unit (List ((String × Nat) × Int))) :
    exFramesAll (fun f => notDlInit f && notFatal f)
      (reportBuilt srv peer msg nd ulcV ultV entries r) = true := by
  cases r with
  | error u => rfl
  | ok cur => exact reportSpeed_tame _ _ _ _ _ _

lemma reportEntries_tame (srv : SrvState) (peer : PeerState) (msg : Msg)
    (nd : MNode) (o : Option (List DlEntry)) :
    exFramesAll (fun f => notDlInit f && notFatal f)
      (reportEntries srv peer msg nd o) = true := by
  cases o with
  | none => rfl
  | some entries => exact reportBuilt_tame _ _ _ _ _ _ _ _

lemma reportWithNode_tame (srv : SrvState) (peer : PeerState) (msg : Msg)
    (o : Option MNode) :
    exFramesAll (fun f => notDlInit f && notFatal f)
      (reportWithNode srv peer msg o) = true := by
  cases o with
  | none => rfl
  | some nd => exact reportEntries_tame _ _ _ _ _

lemma handleReport_tame (srv : SrvState) (peer : PeerState) (msg : Msg) :
    exFramesAll (fun f => notDlInit f && notFatal f) (handleReport srv peer msg) = true := by
  unfold handleReport
  split_ifs <;> first
    | rfl
    | exact reportWithNode_tame srv peer msg _

lemma exFramesAll_imp {p q : Frame → Bool} (r : Except HExn HRes)
    (h : exFramesAll p r = true) (hpq : ∀ f, p f = true → q f = true) :
    exFramesAll q r = true := by
  cases r with
  | ok v => exact all_imp _ h hpq
  | error e => exact all_imp _ h hpq

lemma handleCore_noDl (srv : SrvState) (peer : PeerState) (msg : Msg) :
    exFramesAll (fun f => !f.isDownload) (handleCore srv peer msg) = true := by
  unfold handleCore
  dsimp only
  split_ifs
  · rfl
  · exact exFramesAll_imp _ (handleVersion_tame srv peer msg)
      (fun f hf => by simp only [notDlInit, Bool.and_eq_true] at hf; exact hf.1)
  · exact exFramesAll_imp _ (handleJoin_tame srv peer msg)
      (fun f hf => by
        simp only [notDlInit, Bool.and_eq_true] at hf
        exact hf.1.1)
  · exact exFramesAll_imp _ (handleHashes_tame srv peer msg true)
      (fun f hf => by
        simp only [notDlInit, Bool.and_eq_true] at hf
        exact hf.1.1)
  · exact exFramesAll_imp _ (handleHashes_tame srv peer msg false)
      (fun f hf => by
        simp only [notDlInit, Bool.and_eq_true] at hf
        exact hf.1.1)
  · exact exFramesAll_imp _ (handleReport_tame srv peer msg)
      (fun f hf => by
        simp only [notDlInit, Bool.and_eq_true] at hf
        exact hf.1.1)
  · rfl
  · rfl

lemma handleClientMsg_noDl (srv : SrvState) (peer : PeerState) (msg : Msg) :
    (handleClientMsg srv peer msg).frames.all (fun f => !f.isDownload) = true := by
  unfold handleClientMsg
  have h := handleCore_noDl srv peer msg
  cases hc : handleCore srv peer msg with
  | ok r =>
    rw [hc] at h
    exact h
  | error e =>
    rw [hc] at h
    simp only [exFramesAll] at h
    rw [List.all_append, h]
    rfl

lemma handleClientMsg_peer (srv : SrvState) (peer : PeerState) (msg : Msg) :
    (handleClientMsg srv peer msg).peer = exPeer (handleCore srv peer msg) := by
  unfold handleClientMsg
  cases handleCore srv peer msg <;> rfl

lemma versionCheckRel_node (srv : SrvState) (peer : PeerState) (msg : Msg)
    (hrel : List Nat) (o : Option (List Nat)) :
    (exPeer (versionCheckRel srv peer msg hrel o)).node = peer.node := by
  cases o with
  | none => rfl
  | some rel =>
    simp only [versionCheckRel]
    split_ifs <;> rfl

lemma versionCheckVal_node (srv : SrvState) (peer : PeerState) (msg : Msg)
    (hrel : List Nat) (v : JVal) :
    (exPeer (versionCheckVal srv peer msg hrel v)).node = peer.node := by
  cases v with
  | str s => exact versionCheckRel_node srv peer msg hrel _
  | null => rfl
  | int n => rfl
  | strlist xs => rfl
  | numlist xs => rfl
  | dicts xs => rfl
  | sdict kvs => rfl

lemma handleVersion_node (srv : SrvState) (peer : PeerState) (msg : Msg) :
    (exPeer (handleVersion srv peer msg)).node = peer.node := by
  unfold handleVersion
  cases parseRelease srv.protoVersion with
  | none => rfl
  | some hrel => exact versionCheckVal_node srv peer msg hrel _

lemma joinFinish_peer (srv2 : SrvState) (peer2 : PeerState) (o : Option Batch) :
    exPeer (joinFinish srv2 peer2 o) = peer2 := by
  cases o <;> rfl

lemma joinCreate_node (srv1 : SrvState) (peer : PeerState) (msg : Msg)
    (dlUrl : String) (dlSlots : JVal) (o : Option (List String)) :
    (exPeer (joinCreate srv1 peer msg dlUrl dlSlots o)).node = peer.node ∨
      ∃ nid, (exPeer (joinCreate srv1 peer msg dlUrl dlSlots o)).node = some nid := by
  cases o with
  | none => exact Or.inl rfl
  | some hs =>
    simp only [joinCreate, joinFinish_peer]
    exact Or.inr ⟨_, rfl⟩

lemma joinUrlVal_node (srv : SrvState) (peer : PeerState) (msg : Msg)
    (dlSlots : JVal) (v : JVal) :
    (exPeer (joinUrlVal srv peer msg dlSlots v)).node = peer.node ∨
      ∃ nid, (exPeer (joinUrlVal srv peer msg dlSlots v)).node = some nid := by
  cases v with
  | str dlUrl =>
    simp only [joinUrlVal]
    split_ifs <;> first
      | exact Or.inl rfl
      | exact joinCreate_node _ peer msg dlUrl dlSlots _
  | null => exact Or.inl rfl
  | int n => exact Or.inl rfl
  | strlist xs => exact Or.inl rfl
  | numlist xs => exact Or.inl rfl
  | dicts xs => exact Or.inl rfl
  | sdict kvs => exact Or.inl rfl

lemma handleJoin_node (srv : SrvState) (peer : PeerState) (msg : Msg) :
    (exPeer (handleJoin srv peer msg)).node = peer.node ∨
      ∃ nid, (exPeer (handleJoin srv peer msg)).node = some nid := by
  unfold handleJoin
  split_ifs <;> first
    | exact Or.inl rfl
    | exact joinUrlVal_node srv peer msg _ _

lemma hashesRun_peer (srv : SrvState) (peer : PeerState) (msg : Msg)
    (clearFirst : Bool) (nd : MNode) (o : Option (List String)) :
    exPeer (hashesRun srv peer msg clearFirst nd o) = peer := by
  cases o with
  | none => rfl
  | some hs =>
    simp only [hashesRun]
    split_ifs <;> rfl

lemma hashesWithNode_peer (srv : SrvState) (peer : PeerState) (msg : Msg)
    (clearFirst : Bool) (o : Option MNode) :
    exPeer (hashesWithNode srv peer msg clearFirst o) = peer := by
  cases o with
  | none => rfl
  | some nd => exact hashesRun_peer srv peer msg clearFirst nd _

lemma handleHashes_peer (srv : SrvState) (peer : PeerState) (msg : Msg)
    (clearFirst : Bool) :
    exPeer (handleHashes srv peer msg clearFirst) = peer := by
  unfold handleHashes
  split_ifs <;> first
    | rfl
    | exact hashesWithNode_peer srv peer msg clearFirst _

lemma reportCmp2_peer (srv2 : SrvState) (peer : PeerState) (r : Except String Bool) :
    exPeer (reportCmp2 srv2 peer r) = peer := by
  cases r with
  | error t => rfl
  | ok b2 =>
    simp only [reportCmp2]
    split_ifs <;> rfl

lemma reportCmp1_peer (srv2 : SrvState) (peer : PeerState) (nDls : Nat)
    (maxDls : JVal) (r : Except String Bool) :
    exPeer (reportCmp1 srv2 peer nDls maxDls r) = peer := by
  cases r with
  | error t => rfl
  | ok b1 =>
    simp only [reportCmp1]
    split_ifs <;> first
      | rfl
      | exact reportCmp2_peer _ _ _

lemma reportSpeed_peer (srv : SrvState) (peer : PeerState) (nd1 : MNode)
    (ulcV : JVal) (nDls : Nat) (o : Option (List Int)) :
    exPeer (reportSpeed srv peer nd1 ulcV nDls o) = peer := by
  cases o with
  | none => rfl
  | some ds => exact reportCmp1_peer _ _ _ _ _

lemma reportBuilt_peer (srv : SrvState) (peer : PeerState) (msg : Msg)
    (nd : MNode) (ulcV ultV : JVal) (entries : List DlEntry)
    (r : Except Unit (List ((String × Nat) × Int))) :
    exPeer (reportBuilt srv peer msg nd ulcV ultV entries r) = peer := by
  cases r with
  | error u => rfl
  | ok cur => exact reportSpeed_peer _ _ _ _ _ _

lemma reportEntries_peer (srv : SrvState) (peer : PeerState) (msg : Msg)
    (nd : MNode) (o : Option (List DlEntry)) :
    exPeer (reportEntries srv peer msg nd o) = peer := by
  cases o with
  | none => rfl
  | some entries => exact reportBuilt_peer _ _ _ _ _ _ _ _

lemma reportWithNode_peer (srv : SrvState) (peer : PeerState) (msg : Msg)
    (o : Option MNode) :
    exPeer (reportWithNode srv peer msg o) = peer := by
  cases o with
  | none => rfl
  | some nd => exact reportEntries_peer _ _ _ _ _

lemma handleReport_peer (srv : SrvState) (peer : PeerState) (msg : Msg) :
    exPeer (handleReport srv peer msg) = peer := by
  unfold handleReport
  split_ifs <;> first
    | rfl
    | exact reportWithNode_peer srv peer msg _

lemma handleCore_node (srv : SrvState) (peer : PeerState) (msg : Msg) :
    (exPeer (handleCore srv peer msg)).node = peer.node ∨
      ∃ nid, (exPeer (handleCore srv peer msg)).node = some nid := by
  unfold handleCore
  dsimp only
  split_ifs
  · exact Or.inl rfl
  · exact Or.inl (handleVersion_node srv peer msg)
  · exact handleJoin_node srv peer msg
  · exact Or.inl (by rw [handleHashes_peer])
  · exact Or.inl (by rw [handleHashes_peer])
  · exact Or.inl (by rw [handleReport_peer])
  · exact Or.inl rfl
  · exact Or.inl rfl

lemma handleClientMsg_node_none (srv : SrvState) (peer : PeerState) (msg : Msg)
    (h : (handleClientMsg srv peer msg).peer.node = none) : peer.node = none := by
  rw [handleClientMsg_peer] at h
  rcases handleCore_node srv peer msg with hc | ⟨nid, hc⟩
  · rw [← hc]; exact h
  · rw [hc] at h; exact absurd h (by simp)

lemma hasInit_ne_nil (l : List Frame) (h : hasInit l = true) : l ≠ [] := by
  intro e
  subst e
  simp [hasInit] at h

lemma firstFrameOk_snoc (l : List Frame) (f : Frame) (h : firstFrameOk l = true)
    (hf : (f.isOk || f.isInitialBatch) = true) : firstFrameOk (l ++ [f]) = true := by
  cases l with
  | nil => simpa [firstFrameOk] using hf
  | cons g t => simpa [firstFrameOk] using h

lemma hasInit_snoc (l : List Frame) (f : Frame) (hf : f.isInitialBatch = true) :
    hasInit (l ++ [f]) = true := by
  simp [hasInit, List.any_append, hf]

/-- Inductive invariant of the peer-session transition system. -/
def sessInv (s : Sess) : Prop :=
  firstFrameOk s.frames = true ∧
  (s.welcomeDone = true → hasInit s.frames = true) ∧
  (s.peer.node.isSome = true → s.welcomeDone = true) ∧
  (s.peer.node = none → s.frames.all (fun f => !f.isDownload) = true) ∧
  noDlBeforeInit s.frames = true

lemma sessInv_init (srv0 : SrvState) (addr : String) : sessInv (sessInit srv0 addr) := by
  refine ⟨rfl, ?_, ?_, fun _ => rfl, rfl⟩ <;> intro h <;> simp [sessInit] at h

lemma sessInv_step {s t : Sess} (hs : sessInv s) (st : SessStep s t) : sessInv t := by
  obtain ⟨h1, h2, h5, h3, h4⟩ := hs
  cases st with
  | srvUpdate srv2 => exact ⟨h1, h2, h5, h3, h4⟩
  | welcomeHold hw hb =>
    refine ⟨firstFrameOk_snoc _ _ h1 rfl, ?_, ?_, ?_, ?_⟩ <;> dsimp only
    · intro h
      rw [hw] at h
      exact absurd h (by simp)
    · intro h
      exact h5 h
    · intro h
      rw [List.all_append, h3 h]
      rfl
    · exact noDlBeforeInit_append_all _ _ h4 rfl
  | welcomeFinish b hw hb =>
    refine ⟨firstFrameOk_snoc _ _ h1 rfl, ?_, ?_, ?_, ?_⟩ <;> dsimp only
    · intro _
      exact hasInit_snoc _ _ rfl
    · intro _
      rfl
    · intro h
      rw [List.all_append, h3 h]
      rfl
    · exact noDlBeforeInit_append_all _ _ h4 rfl
  | recvEarly hc hw =>
    refine ⟨firstFrameOk_snoc _ _ h1 rfl, ?_, ?_, ?_, ?_⟩ <;> dsimp only
    · intro h
      rw [hw] at h
      exact absurd h (by simp)
    · intro h
      exact h5 h
    · intro h
      rw [List.all_append, h3 h]
      rfl
    · exact noDlBeforeInit_append_all _ _ h4 rfl
  | recvMsg m hc hw =>
    have hne : s.frames ≠ [] := hasInit_ne_nil _ (h2 hw)
    refine ⟨?_, ?_, ?_, ?_, ?_⟩ <;> dsimp only
    · rw [firstFrameOk_append _ _ hne]
      exact h1
    · intro _
      exact hasInit_append_left _ _ (h2 hw)
    · intro _
      exact hw
    · intro h
      have hold : s.peer.node = none := handleClientMsg_node_none _ _ _ h
      rw [List.all_append, h3 hold, handleClientMsg_noDl]
      rfl
    · exact noDlBeforeInit_append_hasInit _ _ h4 (h2 hw)
  | recvBadJson hc hw =>
    have hne : s.frames ≠ [] := hasInit_ne_nil _ (h2 hw)
    refine ⟨?_, ?_, ?_, ?_, ?_⟩ <;> dsimp only
    · rw [firstFrameOk_append _ _ hne]
      exact h1
    · intro _
      exact hasInit_append_left _ _ (h2 hw)
    · intro _
      exact hw
    · intro h
      rw [List.all_append, h3 h]
      rfl
    · exact noDlBeforeInit_append_hasInit _ _ h4 (h2 hw)
  | plannerDl hsh u hnode =>
    have hw : s.welcomeDone = true := h5 hnode
    have hne : s.frames ≠ [] := hasInit_ne_nil _ (h2 hw)
    refine ⟨?_, ?_, ?_, ?_, ?_⟩ <;> dsimp only
    · rw [firstFrameOk_append _ _ hne]
      exact h1
    · intro _
      exact hasInit_append_left _ _ (h2 hw)
    · intro _
      exact hw
    · intro h
      rw [h] at hnode
      exact absurd hnode (by simp)
    · exact noDlBeforeInit_append_hasInit _ _ h4 (h2 hw)
  | masterBcast b hnode =>
    have hw : s.welcomeDone = true := h5 hnode
    have hne : s.frames ≠ [] := hasInit_ne_nil _ (h2 hw)
    refine ⟨?_, ?_, ?_, ?_, ?_⟩ <;> dsimp only
    · rw [firstFrameOk_append _ _ hne]
      exact h1
    · intro _
      exact hasInit_append_left _ _ (h2 hw)
    · intro _
      exact hw
    · intro h
      rw [h] at hnode
      exact absurd hnode (by simp)
    · exact noDlBeforeInit_append_hasInit _ _ h4 (h2 hw)
  | deliver hc hd => exact ⟨h1, h2, h5, h3, h4⟩

lemma sessInv_reach {srv0 : SrvState} {addr : String} {s : Sess}
    (h : SessReach srv0 addr s) : sessInv s := by
  induction h with
  | init => exact sessInv_init srv0 addr
  | step hr st ih => exact sessInv_step ih st

/-- Concrete example chunk, batch and server state for witnesses. -/
def exChunk : FileChunk := ⟨"A", "f.bin", 0, 4⟩

def exBatch : Batch := ⟨[exChunk]⟩

def srvEx : SrvState :=
  ⟨"1.4.1", "masterhost", some exBatch, {"A"}, [], 1, 0, false⟩

/-- C2: for every peer session, the first frame enqueued for (and, the
delivered frames being a prefix of the enqueued ones, delivered to) the
peer is either the `initial_batch` frame or an `ok` hold-on message; a
`download` frame is never the first frame, no `download` frame ever
precedes the `initial_batch` frame, and no `download` frame is ever
enqueued while the peer has not joined the swarm (has no Node). -/
theorem claim_C2_first_frame (srv0 : SrvState) (addr : String) (s : Sess)
    (h : SessReach srv0 addr s) :
    firstFrameOk s.frames = true ∧
    firstFrameOk (s.frames.take s.delivered) = true ∧
    noDlBeforeInit s.frames = true ∧
    (s.peer.node = none → s.frames.all (fun f => !f.isDownload) = true) := by
  obtain ⟨h1, h2, h5, h3, h4⟩ := sessInv_reach h
  exact ⟨h1, firstFrameOk_take _ _ h1, h4, h3⟩

/-- Witness for C2 at a concrete reachable session state. -/
theorem claim_C2_first_frame_witness :
    firstFrameOk (sessInit srvEx "peer1").frames = true ∧
    firstFrameOk ((sessInit srvEx "peer1").frames.take (sessInit srvEx "peer1").delivered) = true ∧
    noDlBeforeInit (sessInit srvEx "peer1").frames = true ∧
    ((sessInit srvEx "peer1").peer.node = none →
      (sessInit srvEx "peer1").frames.all (fun f => !f.isDownload) = true) :=
  claim_C2_first_frame srvEx "peer1" (sessInit srvEx "peer1") SessReach.init

lemma parseRelease_ne_empty {s : String} {rel : List Nat}
    (h : parseRelease s = some rel) : s ≠ "" := by
  intro e
  subst e
  rw [show parseRelease "" = none from by decide] at h
  exact Option.noConfusion h

lemma handleClientMsg_eq_ok (srv : SrvState) (peer : PeerState) (msg : Msg)
    (r : HRes) (h : handleCore srv peer msg = Except.ok r) :
    handleClientMsg srv peer msg = r := by
  unfold handleClientMsg
  rw [h]

lemma handleCore_version (srv : SrvState) (peer : PeerState) (msg : Msg)
    (haction : pyGet msg "action" = JVal.str "version") :
    handleCore srv peer msg = handleVersion srv peer msg := by
  unfold handleCore
  dsimp only
  rw [haction]
  rfl

lemma handleVersion_eval (srv : SrvState) (peer : PeerState) (msg : Msg)
    (hm : Nat) (hrest : List Nat) (s : String)
    (hmaster : parseRelease srv.protoVersion = some (hm :: hrest))
    (hproto : pyGet msg "protocol" = JVal.str s) (hs : s ≠ "") :
    handleVersion srv peer msg =
      versionCheckRel srv peer msg (hm :: hrest) (parseRelease s) := by
  unfold handleVersion
  rw [hmaster]
  dsimp only
  rw [hproto]
  have ht : (JVal.str s).truthy = true := by simp [JVal.truthy, hs]
  rw [if_pos ht]
  rfl

lemma versionCheckRel_accept (srv : SrvState) (peer : PeerState) (msg : Msg)
    (hm : Nat) (hrest rest : List Nat) :
    versionCheckRel srv peer msg (hm :: hrest) (some (hm :: rest)) =
      Except.ok ⟨srv, { peer with version := some (hm :: rest) },
        [Frame.ok (JVal.sdict [("message", "Version accepted.")])]⟩ := by
  simp [versionCheckRel]

lemma versionCheckRel_mismatch (srv : SrvState) (peer : PeerState) (msg : Msg)
    (hm : Nat) (hrest : List Nat) (m : Nat) (rest : List Nat) (hne : m ≠ hm) :
    versionCheckRel srv peer msg (hm :: hrest) (some (m :: rest)) =
      Except.ok ⟨srv, peer, [Frame.fatal "Incompatible protocol." none]⟩ := by
  simp [versionCheckRel, hne]

lemma deliverLoop_closed (l : List Frame) : (deliverLoop l).2 = l.any Frame.isFatal := by
  induction l with
  | nil => rfl
  | cons f t ih =>
    by_cases hf : f.isFatal = true <;> simp [deliverLoop, hf, ih]

lemma runSession_cons_fatal (srv : SrvState) (peer : PeerState) (msg : Msg)
    (msgs : List Msg)
    (h : (handleClientMsg srv peer msg).frames.any Frame.isFatal = true) :
    runSession srv peer (msg :: msgs) =
      ⟨(handleClientMsg srv peer msg).srv, (handleClientMsg srv peer msg).peer,
       (handleClientMsg srv peer msg).frames, true⟩ := by
  unfold runSession
  rw [List.foldl_cons]
  have h1 : stepSession ⟨srv, peer, [], false⟩ msg =
      ⟨(handleClientMsg srv peer msg).srv, (handleClientMsg srv peer msg).peer,
       (handleClientMsg srv peer msg).frames, true⟩ := by
    simp [stepSession, h]
  rw [h1]
  exact foldl_stepSession_closed _ _ rfl

/-- C1: on a `version` message whose protocol string parses and whose
MAJOR component equals the MAJOR of the master's `PROTOCOL_VERSION`, the
master replies `ok` and records the release in `peer.version` (MINOR and
PATCH are arbitrary — only MAJOR is compared); if the MAJOR differs the
master replies a `fatal` frame, and if the string does not parse it
replies the invalid-version `fatal` frame; a reply containing a fatal
frame closes the session after the fatal frame is delivered, later
messages are not processed, and no Node is ever created for the peer
(server state and peer record unchanged). -/
theorem claim_C1_version_handshake (srv : SrvState) (peer : PeerState)
    (msg : Msg) (s : String) (hm : Nat) (hrest : List Nat)
    (hmaster : parseRelease srv.protoVersion = some (hm :: hrest))
    (haction : pyGet msg "action" = JVal.str "version")
    (hproto : pyGet msg "protocol" = JVal.str s) :
    (∀ rest, parseRelease s = some (hm :: rest) →
      handleClientMsg srv peer msg =
        ⟨srv, { peer with version := some (hm :: rest) },
         [Frame.ok (JVal.sdict [("message", "Version accepted.")])]⟩) ∧
    (∀ m rest, parseRelease s = some (m :: rest) → m ≠ hm →
      handleClientMsg srv peer msg =
        ⟨srv, peer, [Frame.fatal "Incompatible protocol." none]⟩) ∧
    (parseRelease s = none → s ≠ "" →
      handleClientMsg srv peer msg =
        ⟨srv, peer, [Frame.fatal "Invalid protocol version." (some msg)]⟩) ∧
    (∀ l : List Frame, l.any Frame.isFatal = true → (deliverLoop l).2 = true) ∧
    (∀ msgs, peer.node = none →
      ((parseRelease s = none ∧ s ≠ "") ∨
        (∃ m rest, parseRelease s = some (m :: rest) ∧ m ≠ hm)) →
      (runSession srv peer (msg :: msgs)).peer.node = none ∧
      (runSession srv peer (msg :: msgs)).srv = srv ∧
      (runSession srv peer (msg :: msgs)).closed = true) := by
  have hdisp := handleCore_version srv peer msg haction
  refine ⟨?_, ?_, ?_, ?_, ?_⟩
  · intro rest hps
    have hs : s ≠ "" := parseRelease_ne_empty hps
    refine handleClientMsg_eq_ok _ _ _ _ ?_
    rw [hdisp, handleVersion_eval srv peer msg hm hrest s hmaster hproto hs, hps]
    exact versionCheckRel_accept srv peer msg hm hrest rest
  · intro m rest hps hne
    have hs : s ≠ "" := parseRelease_ne_empty hps
    refine handleClientMsg_eq_ok _ _ _ _ ?_
    rw [hdisp, handleVersion_eval srv peer msg hm hrest s hmaster hproto hs, hps]
    exact versionCheckRel_mismatch srv peer msg hm hrest m rest hne
  · intro hps hs
    refine handleClientMsg_eq_ok _ _ _ _ ?_
    rw [hdisp, handleVersion_eval srv peer msg hm hrest s hmaster hproto hs, hps]
    rfl
  · intro l hl
    rw [deliverLoop_closed]
    exact hl
  · intro msgs hnode hbad
    have hres : handleClientMsg srv peer msg = ⟨srv, peer,
        [Frame.fatal "Invalid protocol version." (some msg)]⟩ ∨
        handleClientMsg srv peer msg = ⟨srv, peer,
        [Frame.fatal "Incompatible protocol." none]⟩ := by
      rcases hbad with ⟨hps, hs⟩ | ⟨m, rest, hps, hne⟩
      · refine Or.inl (handleClientMsg_eq_ok _ _ _ _ ?_)
        rw [hdisp, handleVersion_eval srv peer msg hm hrest s hmaster hproto hs, hps]
        rfl
      · refine Or.inr (handleClientMsg_eq_ok _ _ _ _ ?_)
        have hs : s ≠ "" := parseRelease_ne_empty hps
        rw [hdisp, handleVersion_eval srv peer msg hm hrest s hmaster hproto hs, hps]
        exact versionCheckRel_mismatch srv peer msg hm hrest m rest hne
    rcases hres with hres | hres
    · rw [runSession_cons_fatal srv peer msg msgs (by rw [hres]; rfl), hres]
      exact ⟨hnode, rfl, rfl⟩
    · rw [runSession_cons_fatal srv peer msg msgs (by rw [hres]; rfl), hres]
      exact ⟨hnode, rfl, rfl⟩

/-- Witness for C1: master at protocol 1.4.1, peer at 2.0.0 — fatal and
closed session, no Node; and a peer at 1.9.9 (MINOR/PATCH differ) —
accepted. -/
theorem claim_C1_version_handshake_witness :
    (handleClientMsg srvEx ⟨"1.2.3.4", none, none⟩
        [("action", JVal.str "version"), ("protocol", JVal.str "2.0.0")] =
      ⟨srvEx, ⟨"1.2.3.4", none, none⟩, [Frame.fatal "Incompatible protocol." none]⟩) ∧
    (handleClientMsg srvEx ⟨"1.2.3.4", none, none⟩
        [("action", JVal.str "version"), ("protocol", JVal.str "1.9.9")] =
      ⟨srvEx, ⟨"1.2.3.4", some [1, 9, 9], none⟩,
       [Frame.ok (JVal.sdict [("message", "Version accepted.")])]⟩) ∧
    (runSession srvEx ⟨"1.2.3.4", none, none⟩
        [[("action", JVal.str "version"), ("protocol", JVal.str "2.0.0")]]).peer.node = none := by
  refine ⟨?_, ?_, ?_⟩
  · exact (claim_C1_version_handshake srvEx ⟨"1.2.3.4", none, none⟩
      [("action", JVal.str "version"), ("protocol", JVal.str "2.0.0")] "2.0.0" 1 [4, 1]
      (by decide) (by decide) (by decide)).2.1 2 [0, 0] (by decide) (by decide)
  · exact (claim_C1_version_handshake srvEx ⟨"1.2.3.4", none, none⟩
      [("action", JVal.str "version"), ("protocol", JVal.str "1.9.9")] "1.9.9" 1 [4, 1]
      (by decide) (by decide) (by decide)).1 [9, 9] (by decide)
  · exact ((claim_C1_version_handshake srvEx ⟨"1.2.3.4", none, none⟩
      [("action", JVal.str "version"), ("protocol", JVal.str "2.0.0")] "2.0.0" 1 [4, 1]
      (by decide) (by decide) (by decide)).2.2.2.2 []
      rfl (Or.inr ⟨2, [0, 0], by decide, by decide⟩)).1

/-- The server state of a handler outcome. -/
def exSrv : Except HExn HRes → SrvState
  | Except.ok r => r.srv
  | Except.error e => e.srv

/-- A handler outcome that left server and peer untouched and answered
only non-fatal frames. -/
def benign (srv : SrvState) (peer : PeerState) (r : Except HExn HRes) : Prop :=
  exSrv r = srv ∧ exPeer r = peer ∧ exFramesAll notFatal r = true

lemma joinUrlVal_unversioned (srv : SrvState) (peer : PeerState) (msg : Msg)
    (dlSlots : JVal) (v : JVal) (hver : peer.version = none) :
    benign srv peer (joinUrlVal srv peer msg dlSlots v) := by
  cases v with
  | str dlUrl =>
    simp only [joinUrlVal]
    split_ifs with h1 h2 h3
    · exact ⟨rfl, rfl, rfl⟩
    · exact ⟨rfl, rfl, rfl⟩
    · exact ⟨rfl, rfl, rfl⟩
    · exact absurd (by simp [hver] : peer.version.isNone = true) h3
  | null => exact ⟨rfl, rfl, rfl⟩
  | int n => exact ⟨rfl, rfl, rfl⟩
  | strlist xs => exact ⟨rfl, rfl, rfl⟩
  | numlist xs => exact ⟨rfl, rfl, rfl⟩
  | dicts xs => exact ⟨rfl, rfl, rfl⟩
  | sdict kvs => exact ⟨rfl, rfl, rfl⟩

lemma handleJoin_unversioned (srv : SrvState) (peer : PeerState) (msg : Msg)
    (hver : peer.version = none) :
    benign srv peer (handleJoin srv peer msg) := by
  unfold handleJoin
  split_ifs
  · exact ⟨rfl, rfl, rfl⟩
  · exact ⟨rfl, rfl, rfl⟩
  · exact joinUrlVal_unversioned srv peer msg _ _ hver

lemma handleHashes_unjoined (srv : SrvState) (peer : PeerState) (msg : Msg)
    (clearFirst : Bool) (hnode : peer.node = none) :
    benign srv peer (handleHashes srv peer msg clearFirst) := by
  unfold handleHashes
  rw [hnode]
  split_ifs
  · exact ⟨rfl, rfl, rfl⟩
  · exact ⟨rfl, rfl, rfl⟩

lemma handleReport_unjoined (srv : SrvState) (peer : PeerState) (msg : Msg)
    (hnode : peer.node = none) :
    benign srv peer (handleReport srv peer msg) := by
  unfold handleReport
  rw [hnode]
  split_ifs
  · exact ⟨rfl, rfl, rfl⟩
  · exact ⟨rfl, rfl, rfl⟩

lemma handleClientMsg_of_benign (srv : SrvState) (peer : PeerState) (msg : Msg)
    (h : benign srv peer (handleCore srv peer msg)) :
    (handleClientMsg srv peer msg).srv = srv ∧
    (handleClientMsg srv peer msg).peer = peer ∧
    (handleClientMsg srv peer msg).frames.all notFatal = true := by
  obtain ⟨hs, hp, hf⟩ := h
  unfold handleClientMsg
  cases hc : handleCore srv peer msg with
  | ok r =>
    rw [hc] at hs hp hf
    exact ⟨hs, hp, hf⟩
  | error e =>
    rw [hc] at hs hp hf
    simp only [exSrv, exPeer, exFramesAll] at hs hp hf
    refine ⟨hs, hp, ?_⟩
    rw [List.all_append, hf]
    rfl

lemma deliverLoop_open (l : List Frame) (h : l.all notFatal = true) :
    (deliverLoop l).2 = false := by
  induction l with
  | nil => rfl
  | cons f t ih =>
    simp only [List.all_cons, Bool.and_eq_true, notFatal, Bool.not_eq_true'] at h
    simp [deliverLoop, h.1, ih h.2]

lemma handleCore_join (srv : SrvState) (peer : PeerState) (msg : Msg)
    (haction : pyGet msg "action" = JVal.str "join_swarm") :
    handleCore srv peer msg = handleJoin srv peer msg := by
  unfold handleCore
  dsimp only
  rw [haction]
  rfl

lemma handleCore_setHashes (srv : SrvState) (peer : PeerState) (msg : Msg)
    (haction : pyGet msg "action" = JVal.str "set_hashes") :
    handleCore srv peer msg = handleHashes srv peer msg true := by
  unfold handleCore
  dsimp only
  rw [haction]
  rfl

lemma handleCore_addHashes (srv : SrvState) (peer : PeerState) (msg : Msg)
    (haction : pyGet msg "action" = JVal.str "add_hashes") :
    handleCore srv peer msg = handleHashes srv peer msg false := by
  unfold handleCore
  dsimp only
  rw [haction]
  rfl

lemma handleCore_report (srv : SrvState) (peer : PeerState) (msg : Msg)
    (haction : pyGet msg "action" = JVal.str "report_transfers") :
    handleCore srv peer msg = handleReport srv peer msg := by
  unfold handleCore
  dsimp only
  rw [haction]
  rfl

lemma handleCore_errAction (srv : SrvState) (peer : PeerState) (msg : Msg)
    (haction : pyGet msg "action" = JVal.str "error") :
    handleCore srv peer msg = Except.ok ⟨srv, peer, []⟩ := by
  unfold handleCore
  dsimp only
  rw [haction]
  rfl

lemma handleCore_unknown (srv : SrvState) (peer : PeerState) (msg : Msg)
    (a : String) (haction : pyGet msg "action" = JVal.str a) (hne : a ≠ "")
    (h1 : a ≠ "version") (h2 : a ≠ "join_swarm") (h3 : a ≠ "set_hashes")
    (h4 : a ≠ "add_hashes") (h5 : a ≠ "report_transfers") (h6 : a ≠ "error") :
    handleCore srv peer msg =
      Except.ok ⟨srv, peer,
        [Frame.fatal "Unknown action. Bad protocol. Goodbye." (some msg)]⟩ := by
  unfold handleCore
  dsimp only
  rw [haction]
  simp [JVal.truthy, JVal.eqStr, hne, h1, h2, h3, h4, h5, h6]

/-- An unversioned, unjoined peer session record. -/
def peerU : PeerState := ⟨"10.0.0.2", none, none⟩

/-- A versioned (1.4.1), unjoined peer session record. -/
def peerV : PeerState := ⟨"10.0.0.2", some [1, 4, 1], none⟩

/-- A valid `join_swarm` message (all required arguments present). -/
def msgJoinU : Msg :=
  [("action", JVal.str "join_swarm"), ("hashes", JVal.strlist []),
   ("dl_url", JVal.str "http://p/{hash}"), ("concurrent_transfers", JVal.int 2)]

/-- C5 counterexample: an unversioned peer sending a fully valid
`join_swarm` gets a non-fatal `error` frame ("must check version before
joining") and the session stays open — not the `fatal` frame the claim
asserts. -/
theorem claim_C5_counterexample :
    (handleClientMsg srvEx peerU msgJoinU).frames =
      [Frame.error "Protocol error: must check version before joining" msgJoinU] ∧
    (handleClientMsg srvEx peerU msgJoinU).frames.all notFatal = true ∧
    (deliverLoop (handleClientMsg srvEx peerU msgJoinU).frames).2 = false := by
  refine ⟨?_, ?_, ?_⟩ <;> rfl

/-- C5 amended: before the version handshake, only an *unrecognized* (or
missing) action is fatal; `join_swarm`, `set_hashes`, `add_hashes` and
`report_transfers` are answered with a non-fatal `error` frame, the
session stays open and no state changes; an `error` action produces no
reply at all. -/
theorem claim_C5_amended_unversioned (srv : SrvState) (peer : PeerState)
    (msg : Msg) (hver : peer.version = none) (hnode : peer.node = none) :
    ((pyGet msg "action" = JVal.str "join_swarm" ∨
      pyGet msg "action" = JVal.str "set_hashes" ∨
      pyGet msg "action" = JVal.str "add_hashes" ∨
      pyGet msg "action" = JVal.str "report_transfers") →
      (handleClientMsg srv peer msg).frames.all notFatal = true ∧
      (deliverLoop (handleClientMsg srv peer msg).frames).2 = false ∧
      (handleClientMsg srv peer msg).srv = srv ∧
      (handleClientMsg srv peer msg).peer = peer) ∧
    (pyGet msg "action" = JVal.str "error" →
      (handleClientMsg srv peer msg).frames = []) ∧
    (∀ a : String, pyGet msg "action" = JVal.str a → a ≠ "" →
      a ∉ (["version", "join_swarm", "set_hashes", "add_hashes",
            "report_transfers", "error"] : List String) →
      (handleClientMsg srv peer msg).frames =
        [Frame.fatal "Unknown action. Bad protocol. Goodbye." (some msg)] ∧
      (deliverLoop (handleClientMsg srv peer msg).frames).2 = true) := by
  refine ⟨?_, ?_, ?_⟩
  · rintro (ha | ha | ha | ha)
    · have hb := handleJoin_unversioned srv peer msg hver
      rw [← handleCore_join srv peer msg ha] at hb
      obtain ⟨hs, hp, hf⟩ := handleClientMsg_of_benign srv peer msg hb
      exact ⟨hf, deliverLoop_open _ hf, hs, hp⟩
    · have hb := handleHashes_unjoined srv peer msg true hnode
      rw [← handleCore_setHashes srv peer msg ha] at hb
      obtain ⟨hs, hp, hf⟩ := handleClientMsg_of_benign srv peer msg hb
      exact ⟨hf, deliverLoop_open _ hf, hs, hp⟩
    · have hb := handleHashes_unjoined srv peer msg false hnode
      rw [← handleCore_addHashes srv peer msg ha] at hb
      obtain ⟨hs, hp, hf⟩ := handleClientMsg_of_benign srv peer msg hb
      exact ⟨hf, deliverLoop_open _ hf, hs, hp⟩
    · have hb := handleReport_unjoined srv peer msg hnode
      rw [← handleCore_report srv peer msg ha] at hb
      obtain ⟨hs, hp, hf⟩ := handleClientMsg_of_benign srv peer msg hb
      exact ⟨hf, deliverLoop_open _ hf, hs, hp⟩
  · intro ha
    rw [handleClientMsg_eq_ok srv peer msg _ (handleCore_errAction srv peer msg ha)]
  · intro a ha hne hmem
    simp only [List.mem_cons, List.not_mem_nil, or_false, not_or] at hmem
    obtain ⟨n1, n2, n3, n4, n5, n6⟩ := hmem
    rw [handleClientMsg_eq_ok srv peer msg _
      (handleCore_unknown srv peer msg a ha hne n1 n2 n3 n4 n5 n6)]
    exact ⟨rfl, rfl⟩

/-- Witness for C5 amended at a concrete unversioned join attempt. -/
theorem claim_C5_amended_unversioned_witness :
    (handleClientMsg srvEx peerU msgJoinU).frames.all notFatal = true ∧
    (deliverLoop (handleClientMsg srvEx peerU msgJoinU).frames).2 = false ∧
    (handleClientMsg srvEx peerU msgJoinU).srv = srvEx ∧
    (handleClientMsg srvEx peerU msgJoinU).peer = peerU :=
  (claim_C5_amended_unversioned srvEx peerU msgJoinU rfl rfl).1 (Or.inl (by decide))

/-- A joined example node (id 1) with download url template. -/
def ndEx : MNode :=
  ⟨1, "p1", false, {"A"}, JVal.int 2, JVal.int 2, [], JVal.int 0, [],
   "http://p1/{hash}", []⟩

/-- Server state with the joined example node. -/
def srvJ : SrvState :=
  ⟨"1.4.1", "masterhost", some exBatch, {"A"}, [ndEx], 2, 0, false⟩

/-- A versioned peer session joined as node 1. -/
def peerJ : PeerState := ⟨"10.0.0.2", some [1, 4, 1], some 1⟩

/-- An unknown-action message. -/
def msgBogus : Msg := [("action", JVal.str "frobnicate")]

/-- C6 counterexample: an unknown action from a *joined* peer is answered
with a `fatal` frame (echoing the message) and the session closes — not
the non-fatal `error` frame the claim asserts. -/
theorem claim_C6_counterexample :
    (handleClientMsg srvJ peerJ msgBogus).frames =
      [Frame.fatal "Unknown action. Bad protocol. Goodbye." (some msgBogus)] ∧
    (deliverLoop (handleClientMsg srvJ peerJ msgBogus).frames).2 = true := by
  exact ⟨rfl, rfl⟩

/-- C6 amended: an action that is none of the six handled ones is
answered with a fatal frame echoing the original message and the session
closes, *regardless* of the peer having joined; server and peer state are
untouched. -/
theorem claim_C6_amended_unknown_fatal (srv : SrvState) (peer : PeerState)
    (msg : Msg) (nid : Nat) (hnode : peer.node = some nid)
    (a : String) (haction : pyGet msg "action" = JVal.str a) (hne : a ≠ "")
    (hmem : a ∉ (["version", "join_swarm", "set_hashes", "add_hashes",
                  "report_transfers", "error"] : List String)) :
    (handleClientMsg srv peer msg).frames =
      [Frame.fatal "Unknown action. Bad protocol. Goodbye." (some msg)] ∧
    (deliverLoop (handleClientMsg srv peer msg).frames).2 = true ∧
    (handleClientMsg srv peer msg).srv = srv ∧
    (handleClientMsg srv peer msg).peer = peer := by
  simp only [List.mem_cons, List.not_mem_nil, or_false, not_or] at hmem
  obtain ⟨n1, n2, n3, n4, n5, n6⟩ := hmem
  rw [handleClientMsg_eq_ok srv peer msg _
    (handleCore_unknown srv peer msg a haction hne n1 n2 n3 n4 n5 n6)]
  exact ⟨rfl, rfl, rfl, rfl⟩

/-- Witness for C6 amended at the concrete joined peer. -/
theorem claim_C6_amended_unknown_fatal_witness :
    (handleClientMsg srvJ peerJ msgBogus).frames =
      [Frame.fatal "Unknown action. Bad protocol. Goodbye." (some msgBogus)] ∧
    (deliverLoop (handleClientMsg srvJ peerJ msgBogus).frames).2 = true ∧
    (handleClientMsg srvJ peerJ msgBogus).srv = srvJ ∧
    (handleClientMsg srvJ peerJ msgBogus).peer = peerJ :=
  claim_C6_amended_unknown_fatal srvJ peerJ msgBogus 1 rfl "frobnicate"
    (by decide) (by decide) (by decide)

lemma find?_none_of_fresh (l : List MNode) (nid : Nat)
    (h : ∀ n ∈ l, n.nodeId ≠ nid) :
    l.find? (fun n => n.nodeId = nid) = none := by
  induction l with
  | nil => rfl
  | cons x t ih =>
    have hx := h x (List.mem_cons_self x t)
    simp only [List.find?_cons, decide_eq_false hx]
    exact ih fun n hn => h n (List.mem_cons_of_mem x hn)

lemma map_update_fresh (l : List MNode) (nid : Nat) (f : MNode → MNode)
    (h : ∀ n ∈ l, n.nodeId ≠ nid) :
    l.map (fun n => if n.nodeId = nid then f n else n) = l := by
  induction l with
  | nil => rfl
  | cons x t ih =>
    have hx := h x (List.mem_cons_self x t)
    simp only [List.map_cons, if_neg hx,
      ih fun n hn => h n (List.mem_cons_of_mem x hn)]

lemma contains_http_ne_empty {u : String} (h : strContains u "http" = true) :
    u ≠ "" := by
  intro e
  subst e
  exact absurd h (by decide)

/-- The Node record `join_swarm` creates for the peer (the result of
`node_join` plus the nick and client assignment). -/
def joinNode (srv : SrvState) (msg : Msg) (hs : List String) (u : String) : MNode :=
  { nodeId := srv.nextId,
    name :=
      (if (pyGet msg "nick").truthy then
        (match pyGet msg "nick" with
         | JVal.str s => s
         | _ => "")
       else srv.hostname),
    isMaster := false,
    hashes := hs.toFinset ∩ srv.univ,
    maxDls :=
      if (pyGet msg "concurrent_transfers").truthy then
        pyGet msg "concurrent_transfers"
      else JVal.int 2,
    maxUls :=
      if (pyGet msg "concurrent_transfers").truthy then
        pyGet msg "concurrent_transfers"
      else JVal.int 2,
    activeDls := [], ulCount := JVal.int 0, ulTimes := [], dlUrl := u, queue := [] }

/-- `joinNode` with the download-slot value as an explicit parameter. -/
def joinNodeD (srv : SrvState) (msg : Msg) (hs : List String) (u : String)
    (dlSlots : JVal) : MNode :=
  { nodeId := srv.nextId,
    name :=
      (if (pyGet msg "nick").truthy then
        (match pyGet msg "nick" with
         | JVal.str s => s
         | _ => "")
       else srv.hostname),
    isMaster := false,
    hashes := hs.toFinset ∩ srv.univ,
    maxDls := dlSlots,
    maxUls := dlSlots,
    activeDls := [], ulCount := JVal.int 0, ulTimes := [], dlUrl := u, queue := [] }

lemma joinUrlVal_str (srv : SrvState) (peer : PeerState) (msg : Msg)
    (dlSlots : JVal) (u : String)
    (hhttp : strContains u "http" = true)
    (hph : strContains u "{hash}" = true)
    (hver : peer.version.isNone = false) :
    joinUrlVal srv peer msg dlSlots (JVal.str u) =
      joinCreate (destroyOld srv peer.node) peer msg u dlSlots
        (pyGet msg "hashes").hashTokens := by
  simp only [joinUrlVal]
  rw [if_neg (by simp [hhttp]), if_neg (by simp [hph]), if_neg (by simp [hver])]

lemma joinCreate_eval (srv : SrvState) (peer : PeerState) (msg : Msg)
    (u : String) (dlSlots : JVal) (hs : List String) (b : Batch)
    (hbatch : srv.batch = some b)
    (hfresh : ∀ n ∈ srv.nodes, n.nodeId ≠ srv.nextId) :
    joinCreate srv peer msg u dlSlots (some hs) = Except.ok
      ⟨{ srv with
          nodes := srv.nodes ++ [joinNodeD srv msg hs u dlSlots],
          nextId := srv.nextId + 1,
          replan := true },
       { peer with node := some srv.nextId },
       [Frame.ok (JVal.str "Joined swarm."), Frame.newBatch b]⟩ := by
  unfold joinCreate nodeJoin updateNode
  dsimp only
  rw [hbatch]
  unfold joinFinish setReplan
  dsimp only
  rw [List.map_append, map_update_fresh _ _ _ hfresh]
  simp only [List.map_cons, List.map_nil, if_pos rfl]
  rfl

lemma handleJoin_success (srv : SrvState) (peer : PeerState) (msg : Msg)
    (hs : List String) (u : String) (b : Batch) (vr : List Nat)
    (hhs : pyGet msg "hashes" = JVal.strlist hs)
    (hurl : pyGet msg "dl_url" = JVal.str u)
    (hhttp : strContains u "http" = true)
    (hph : strContains u "{hash}" = true)
    (hver : peer.version = some vr)
    (hnode : peer.node = none)
    (hbatch : srv.batch = some b)
    (hfresh : ∀ n ∈ srv.nodes, n.nodeId ≠ srv.nextId) :
    handleJoin srv peer msg = Except.ok
      ⟨{ srv with
          nodes := srv.nodes ++
            [joinNodeD srv msg hs u
              (if (pyGet msg "concurrent_transfers").truthy then
                pyGet msg "concurrent_transfers" else JVal.int 2)],
          nextId := srv.nextId + 1,
          replan := true },
       { peer with node := some srv.nextId },
       [Frame.ok (JVal.str "Joined swarm."), Frame.newBatch b]⟩ := by
  have hune : u ≠ "" := contains_http_ne_empty hhttp
  unfold handleJoin
  dsimp only
  rw [hhs, hurl]
  rw [if_neg (by simp [JVal.isPyList]), if_neg (by simp [JVal.truthy, hune])]
  rw [joinUrlVal_str srv peer msg _ u hhttp hph (by simp [hver])]
  rw [hnode, hhs]
  show joinCreate srv peer msg u
    (if (pyGet msg "concurrent_transfers").truthy = true then
      pyGet msg "concurrent_transfers" else JVal.int 2) (some hs) = _
  exact joinCreate_eval srv peer msg u _ hs b hbatch hfresh

/-- A `join_swarm` message with no `concurrent_transfers` argument. -/
def msgJoinV : Msg :=
  [("action", JVal.str "join_swarm"), ("hashes", JVal.strlist []),
   ("dl_url", JVal.str "http://p/{hash}")]

/-- C7 counterexample: a `join_swarm` with `concurrent_transfers` missing
is *not* rejected — a Node is created with the default of 2 slots and the
peer gets `ok` plus the batch frame. -/
theorem claim_C7_counterexample :
    (handleClientMsg srvEx peerV msgJoinV).srv.nodes.length =
      srvEx.nodes.length + 1 ∧
    (handleClientMsg srvEx peerV msgJoinV).peer.node = some 1 ∧
    (handleClientMsg srvEx peerV msgJoinV).frames =
      [Frame.ok (JVal.str "Joined swarm."), Frame.newBatch exBatch] ∧
    ((handleClientMsg srvEx peerV msgJoinV).srv.nodes.map (fun n => n.maxDls)) =
      [JVal.int 2] := by
  refine ⟨?_, ?_, ?_, ?_⟩ <;> rfl

/-- C7 amended: `join_swarm` creates a Node only when `hashes` is a list
and `dl_url` is a truthy string containing `http` and `{hash}` (and the
version handshake happened); a missing or invalid `hashes`/`dl_url` gets
a non-fatal `error` frame and no Node; `concurrent_transfers` however is
*not* validated: any falsy or missing value silently defaults to 2 and no
integer-or-≥1 check is made. -/
theorem claim_C7_amended_join_validation (srv : SrvState) (peer : PeerState)
    (msg : Msg) (haction : pyGet msg "action" = JVal.str "join_swarm") :
    ((pyGet msg "hashes").isPyList = false →
      handleClientMsg srv peer msg =
        ⟨srv, peer, [Frame.error "hashes argument missing or invalid." msg]⟩) ∧
    ((pyGet msg "hashes").isPyList = true → (pyGet msg "dl_url").truthy = false →
      handleClientMsg srv peer msg =
        ⟨srv, peer, [Frame.error "dl_url argument missing or invalid." msg]⟩) ∧
    (∀ u : String, (pyGet msg "hashes").isPyList = true →
      pyGet msg "dl_url" = JVal.str u → u ≠ "" →
      strContains u "http" = false →
      handleClientMsg srv peer msg =
        ⟨srv, peer, [Frame.error "dl_url argument missing or invalid." msg]⟩) ∧
    (∀ u : String, (pyGet msg "hashes").isPyList = true →
      pyGet msg "dl_url" = JVal.str u →
      strContains u "http" = true → strContains u "{hash}" = false →
      handleClientMsg srv peer msg =
        ⟨srv, peer, [Frame.error "dl_url must contain placeholder." msg]⟩) ∧
    (∀ (hs : List String) (u : String) (b : Batch) (vr : List Nat),
      pyGet msg "hashes" = JVal.strlist hs →
      pyGet msg "dl_url" = JVal.str u →
      strContains u "http" = true → strContains u "{hash}" = true →
      peer.version = some vr → peer.node = none → srv.batch = some b →
      (∀ n ∈ srv.nodes, n.nodeId ≠ srv.nextId) →
      handleClientMsg srv peer msg =
        ⟨{ srv with
            nodes := srv.nodes ++
              [joinNodeD srv msg hs u
                (if (pyGet msg "concurrent_transfers").truthy then
                  pyGet msg "concurrent_transfers" else JVal.int 2)],
            nextId := srv.nextId + 1,
            replan := true },
         { peer with node := some srv.nextId },
         [Frame.ok (JVal.str "Joined swarm."), Frame.newBatch b]⟩) := by
  refine ⟨?_, ?_, ?_, ?_, ?_⟩
  · intro hinv
    refine handleClientMsg_eq_ok _ _ _ _ ?_
    rw [handleCore_join srv peer msg haction]
    unfold handleJoin
    dsimp only
    rw [if_pos (by simp [hinv])]
  · intro hlist hfal
    refine handleClientMsg_eq_ok _ _ _ _ ?_
    rw [handleCore_join srv peer msg haction]
    unfold handleJoin
    dsimp only
    rw [if_neg (by simp [hlist]), if_pos (by simp [hfal])]
  · intro u hlist hurl hne hcon
    refine handleClientMsg_eq_ok _ _ _ _ ?_
    rw [handleCore_join srv peer msg haction]
    unfold handleJoin
    dsimp only
    rw [hurl, if_neg (by simp [hlist]),
      if_neg (by simp [JVal.truthy, hne])]
    simp only [joinUrlVal]
    rw [if_pos (by simp [hcon])]
  · intro u hlist hurl hcon hph
    have hne : u ≠ "" := contains_http_ne_empty hcon
    refine handleClientMsg_eq_ok _ _ _ _ ?_
    rw [handleCore_join srv peer msg haction]
    unfold handleJoin
    dsimp only
    rw [hurl, if_neg (by simp [hlist]),
      if_neg (by simp [JVal.truthy, hne])]
    simp only [joinUrlVal]
    rw [if_neg (by simp [hcon]), if_pos (by simp [hph])]
  · intro hs u b vr hhs hurl hhttp hph hver hnode hbatch hfresh
    refine handleClientMsg_eq_ok _ _ _ _ ?_
    rw [handleCore_join srv peer msg haction]
    exact handleJoin_success srv peer msg hs u b vr hhs hurl hhttp hph hver
      hnode hbatch hfresh

/-- Witness for C7 amended: concrete join with `concurrent_transfers`
missing succeeds with the default of 2 slots. -/
theorem claim_C7_amended_join_validation_witness :
    handleClientMsg srvEx peerV msgJoinV =
      ⟨{ srvEx with
          nodes := srvEx.nodes ++
            [joinNodeD srvEx msgJoinV [] "http://p/{hash}"
              (if (pyGet msgJoinV "concurrent_transfers").truthy then
                pyGet msgJoinV "concurrent_transfers" else JVal.int 2)],
          nextId := srvEx.nextId + 1,
          replan := true },
       { peerV with node := some srvEx.nextId },
       [Frame.ok (JVal.str "Joined swarm."), Frame.newBatch exBatch]⟩ :=
  (claim_C7_amended_join_validation srvEx peerV msgJoinV (by decide)).2.2.2.2
    [] "http://p/{hash}" exBatch [1, 4, 1] (by decide) (by decide) (by decide)
    (by decide) rfl rfl rfl (by simp [srvEx])

lemma findNode_id {srv : SrvState} {nid : Nat} {nd : MNode}
    (h : findNode srv nid = some nd) : nd.nodeId = nid := by
  unfold findNode at h
  have := List.find?_some h
  simpa using this

lemma find?_map_update (l : List MNode) (nid : Nat) (f : MNode → MNode)
    (nd : MNode) (h : l.find? (fun n => n.nodeId = nid) = some nd)
    (hfnd : (f nd).nodeId = nid) :
    (l.map (fun n => if n.nodeId = nid then f n else n)).find?
      (fun n => n.nodeId = nid) = some (f nd) := by
  induction l with
  | nil => simp [List.find?] at h
  | cons x t ih =>
    by_cases hx : x.nodeId = nid
    · simp only [List.find?_cons, decide_eq_true hx] at h
      cases h
      simp only [List.map_cons, if_pos hx, List.find?_cons]
      rw [decide_eq_true hfnd]
    · simp only [List.find?_cons, decide_eq_false hx] at h
      simp only [List.map_cons, if_neg hx, List.find?_cons, decide_eq_false hx]
      exact ih h

lemma findNode_updateNode {srv : SrvState} {nid : Nat} {nd : MNode}
    (f : MNode → MNode) (h : findNode srv nid = some nd)
    (hfnd : (f nd).nodeId = nid) :
    findNode (updateNode srv nid f) nid = some (f nd) := by
  unfold findNode updateNode at *
  exact find?_map_update srv.nodes nid f nd h hfnd

lemma handleHashes_eval (srv : SrvState) (peer : PeerState) (msg : Msg)
    (clearFirst : Bool) (nid : Nat) (nd : MNode) (hs : List String)
    (hnode : peer.node = some nid)
    (hfind : findNode srv nid = some nd)
    (hhs : pyGet msg "hashes" = JVal.strlist hs)
    (hunk : hs.toFinset \ srv.univ ≠ ∅) :
    handleHashes srv peer msg clearFirst = Except.ok
      ⟨setReplan (updateNode srv nd.nodeId
          (fun _ => (addHashes srv.univ nd hs clearFirst).1)), peer,
       [Frame.ok (JVal.str "Hashes updated"),
        Frame.rehash "You reported hashes not belonging to the swarm."
          (hs.toFinset \ srv.univ)]⟩ := by
  unfold handleHashes
  rw [hhs, if_neg (by simp [JVal.isPyList]), hnode]
  show hashesWithNode srv peer msg clearFirst (findNode srv nid) = _
  rw [hfind]
  show hashesRun srv peer msg clearFirst nd (pyGet msg "hashes").hashTokens = _
  rw [hhs]
  show hashesRun srv peer msg clearFirst nd (some hs) = _
  unfold hashesRun
  dsimp only
  rw [if_neg (by exact hunk)]
  rfl

lemma addHashes_inter (univ : Finset String) (nd : MNode) (hs : List String)
    (clearFirst : Bool) (hsub : nd.hashes ⊆ univ) :
    (addHashes univ nd hs clearFirst).1.hashes ∩ hs.toFinset =
      hs.toFinset ∩ univ := by
  unfold addHashes
  dsimp only
  by_cases hcf : clearFirst = true
  · rw [if_pos hcf]
    ext x
    simp only [Finset.mem_inter]
    tauto
  · rw [if_neg hcf]
    ext x
    simp only [Finset.mem_inter, Finset.mem_union]
    constructor
    · rintro ⟨h1 | ⟨h1, h2⟩, h3⟩
      · exact ⟨h3, hsub h1⟩
      · exact ⟨h3, h2⟩
    · rintro ⟨h1, h2⟩
      exact ⟨Or.inr ⟨h1, h2⟩, h1⟩

/-- C8: a joined peer's `set_hashes`/`add_hashes` reporting hashes outside
the universe gets `ok` then a `rehash` frame listing exactly the reported
hashes outside the universe; nothing is fatal and the session stays open;
of the reported hashes the node retains exactly those inside the
universe; the replan trigger is set. -/
theorem claim_C8_rehash (srv : SrvState) (peer : PeerState) (msg : Msg)
    (nid : Nat) (nd : MNode) (hs : List String)
    (hact : pyGet msg "action" = JVal.str "set_hashes" ∨
            pyGet msg "action" = JVal.str "add_hashes")
    (hnode : peer.node = some nid)
    (hfind : findNode srv nid = some nd)
    (hhs : pyGet msg "hashes" = JVal.strlist hs)
    (hsub : nd.hashes ⊆ srv.univ)
    (hunk : hs.toFinset \ srv.univ ≠ ∅) :
    (handleClientMsg srv peer msg).frames =
      [Frame.ok (JVal.str "Hashes updated"),
       Frame.rehash "You reported hashes not belonging to the swarm."
         (hs.toFinset \ srv.univ)] ∧
    (handleClientMsg srv peer msg).frames.all notFatal = true ∧
    (deliverLoop (handleClientMsg srv peer msg).frames).2 = false ∧
    (handleClientMsg srv peer msg).peer = peer ∧
    (handleClientMsg srv peer msg).srv.replan = true ∧
    (∃ nd2 : MNode, findNode (handleClientMsg srv peer msg).srv nid = some nd2 ∧
      nd2.hashes ∩ hs.toFinset = hs.toFinset ∩ srv.univ) := by
  have hid : nd.nodeId = nid := findNode_id hfind
  have hres : ∃ cf : Bool, handleClientMsg srv peer msg =
      ⟨setReplan (updateNode srv nd.nodeId
          (fun _ => (addHashes srv.univ nd hs cf).1)), peer,
       [Frame.ok (JVal.str "Hashes updated"),
        Frame.rehash "You reported hashes not belonging to the swarm."
          (hs.toFinset \ srv.univ)]⟩ := by
    rcases hact with ha | ha
    · refine ⟨true, handleClientMsg_eq_ok _ _ _ _ ?_⟩
      rw [handleCore_setHashes srv peer msg ha]
      exact handleHashes_eval srv peer msg true nid nd hs hnode hfind hhs hunk
    · refine ⟨false, handleClientMsg_eq_ok _ _ _ _ ?_⟩
      rw [handleCore_addHashes srv peer msg ha]
      exact handleHashes_eval srv peer msg false nid nd hs hnode hfind hhs hunk
  obtain ⟨cf, hres⟩ := hres
  rw [hres]
  refine ⟨rfl, rfl, rfl, rfl, rfl, ?_⟩
  refine ⟨(addHashes srv.univ nd hs cf).1, ?_,
    addHashes_inter srv.univ nd hs cf hsub⟩
  show findNode (updateNode srv nd.nodeId
    (fun _ => (addHashes srv.univ nd hs cf).1)) nid = _
  rw [hid]
  refine findNode_updateNode _ hfind ?_
  show (addHashes srv.univ nd hs cf).1.nodeId = nid
  rw [show (addHashes srv.univ nd hs cf).1.nodeId = nd.nodeId from rfl]
  exact hid

/-- A `set_hashes` message reporting one known and one unknown hash. -/
def msgSetAZ : Msg :=
  [("action", JVal.str "set_hashes"), ("hashes", JVal.strlist ["A", "Z"])]

/-- Server state with universe `{A, B}` and the joined example node. -/
def srvH : SrvState :=
  ⟨"1.4.1", "masterhost", some exBatch, {"A", "B"}, [ndEx], 2, 0, false⟩

/-- Witness for C8 at the spec's rehash scenario (universe `{A,B}`, peer
reports `["A","Z"]`). -/
theorem claim_C8_rehash_witness :
    (handleClientMsg srvH peerJ msgSetAZ).frames =
      [Frame.ok (JVal.str "Hashes updated"),
       Frame.rehash "You reported hashes not belonging to the swarm."
         (["A", "Z"].toFinset \ srvH.univ)] ∧
    (handleClientMsg srvH peerJ msgSetAZ).frames.all notFatal = true ∧
    (deliverLoop (handleClientMsg srvH peerJ msgSetAZ).frames).2 = false ∧
    (handleClientMsg srvH peerJ msgSetAZ).peer = peerJ ∧
    (handleClientMsg srvH peerJ msgSetAZ).srv.replan = true ∧
    (∃ nd2 : MNode, findNode (handleClientMsg srvH peerJ msgSetAZ).srv 1 = some nd2 ∧
      nd2.hashes ∩ ["A", "Z"].toFinset = ["A", "Z"].toFinset ∩ srvH.univ) :=
  claim_C8_rehash srvH peerJ msgSetAZ 1 ndEx ["A", "Z"]
    (Or.inl (by decide)) rfl (by decide) (by decide) (by decide) (by decide)

lemma msgGet_of_pyGet {m : Msg} {k : String} {v : JVal}
    (h : pyGet m k = v) (hv : v ≠ JVal.null) : msgGet m k = some v := by
  unfold pyGet at h
  cases hg : msgGet m k with
  | none =>
    rw [hg] at h
    exact absurd h.symm (by simpa using hv)
  | some w =>
    rw [hg] at h
    simp only [Option.getD_some] at h
    rw [h]

lemma findNode_nodes_eq {a b : SrvState} (nid : Nat) (h : a.nodes = b.nodes) :
    findNode a nid = findNode b nid := by
  unfold findNode
  rw [h]

lemma reportCmp1_shape (srv2 : SrvState) (peer : PeerState) (nDls : Nat)
    (md mu ulc : Int) :
    ∃ rsrv : SrvState,
      reportCmp1 srv2 peer nDls (JVal.int md) (pyLt (JVal.int ulc) (JVal.int mu)) =
        Except.ok ⟨rsrv, peer, [Frame.ok (JVal.str "Transfer status updated")]⟩ ∧
      rsrv.nodes = srv2.nodes := by
  unfold reportCmp1 pyLt
  dsimp only
  by_cases b1 : ulc < mu
  · rw [if_pos (by simpa using b1)]
    exact ⟨setReplan srv2, rfl, rfl⟩
  · rw [if_neg (by simpa using b1)]
    unfold reportCmp2
    dsimp only
    by_cases b2 : (nDls : Int) < md
    · rw [if_pos (by simpa using b2)]
      exact ⟨setReplan srv2, rfl, rfl⟩
    · rw [if_neg (by simpa using b2)]
      exact ⟨srv2, rfl, rfl⟩

lemma handleReport_eval (srv : SrvState) (peer : PeerState) (msg : Msg)
    (nid : Nat) (nd : MNode) (entries : List DlEntry) (ulc : Int)
    (ts : List Int) (cur : List ((String × Nat) × Int)) (mu md : Int)
    (haction : pyGet msg "action" = JVal.str "report_transfers")
    (hnode : peer.node = some nid)
    (hfind : findNode srv nid = some nd)
    (hdls : pyGet msg "dls" = JVal.dicts entries)
    (hulc : pyGet msg "ul_count" = JVal.int ulc)
    (hult : pyGet msg "ul_times" = JVal.numlist ts)
    (hmu : nd.maxUls = JVal.int mu) (hmd : nd.maxDls = JVal.int md)
    (hbuild : buildDlAux srv.nodes [] entries = Except.ok cur) :
    (handleClientMsg srv peer msg).frames =
      [Frame.ok (JVal.str "Transfer status updated")] ∧
    (handleClientMsg srv peer msg).peer = peer ∧
    findNode (handleClientMsg srv peer msg).srv nid =
      some (updateSpeed (setActiveTransfers nd cur (JVal.int ulc)) ts) := by
  have hid : nd.nodeId = nid := findNode_id hfind
  have hds := msgGet_of_pyGet hdls (by intro h; exact JVal.noConfusion h)
  have huc := msgGet_of_pyGet hulc (by intro h; exact JVal.noConfusion h)
  have hut := msgGet_of_pyGet hult (by intro h; exact JVal.noConfusion h)
  have hrun : handleReport srv peer msg =
      reportCmp1 (updateNode srv nd.nodeId
          (fun _ => updateSpeed (setActiveTransfers nd cur (JVal.int ulc)) ts))
        peer entries.length nd.maxDls (pyLt (JVal.int ulc) nd.maxUls) := by
    unfold handleReport
    rw [hds, huc, hut, if_neg (by simp [optIsNone]), hnode]
    show reportWithNode srv peer msg (findNode srv nid) = _
    rw [hfind]
    show reportEntries srv peer msg nd (pyGet msg "dls").dlEntries = _
    rw [hdls]
    show reportBuilt srv peer msg nd (pyGet msg "ul_count") (pyGet msg "ul_times")
      entries (buildDlAux srv.nodes [] entries) = _
    rw [hbuild, hulc, hult]
    rfl
  rw [hmu, hmd] at hrun
  obtain ⟨rsrv, hshape, hnodes⟩ :=
    reportCmp1_shape (updateNode srv nd.nodeId
      (fun _ => updateSpeed (setActiveTransfers nd cur (JVal.int ulc)) ts))
      peer entries.length md mu ulc
  have hcore : handleCore srv peer msg =
      Except.ok ⟨rsrv, peer, [Frame.ok (JVal.str "Transfer status updated")]⟩ := by
    rw [handleCore_report srv peer msg haction, hrun, hshape]
  rw [handleClientMsg_eq_ok _ _ _ _ hcore]
  refine ⟨rfl, rfl, ?_⟩
  rw [findNode_nodes_eq nid hnodes, hid]
  refine findNode_updateNode _ hfind ?_
  show (updateSpeed (setActiveTransfers nd cur (JVal.int ulc)) ts).nodeId = nid
  rw [show (updateSpeed (setActiveTransfers nd cur (JVal.int ulc)) ts).nodeId =
    nd.nodeId from rfl]
  exact hid

/-- The per-entry resolution the `cur_downloads` loop performs: a
well-formed entry maps to `((hash, sender id), mbps)` when some node's
stripped template occurs in the url (first match wins), and to nothing
when no node matches. -/
def resolveEntry (nodes : List MNode) (e : DlEntry) :
    Option ((String × Nat) × Int) :=
  match e.dhash, e.url, e.mbps with
  | some h, some u, some m =>
    match firstMatch nodes u with
    | some n => some ((h, n.nodeId), m)
    | none => none
  | _, _, _ => none

lemma dinsert_fresh (acc : List ((String × Nat) × Int)) (k : String × Nat)
    (v : Int) (h : ∀ p ∈ acc, p.1 ≠ k) : dinsert acc k v = acc ++ [(k, v)] := by
  unfold dinsert
  rw [if_neg]
  intro hc
  simp only [List.any_eq_true, decide_eq_true_eq] at hc
  obtain ⟨p, hp, he⟩ := hc
  exact h p hp he

lemma buildDlAux_eq (nodes : List MNode) (entries : List DlEntry) :
    ∀ acc : List ((String × Nat) × Int),
      (∀ e ∈ entries, e.dhash ≠ none ∧ e.url ≠ none ∧ e.mbps ≠ none) →
      (∀ e ∈ entries, ∀ h : String, e.dhash = some h → ∀ p ∈ acc, p.1.1 ≠ h) →
      (entries.filterMap DlEntry.dhash).Nodup →
      buildDlAux nodes acc entries =
        Except.ok (acc ++ entries.filterMap (resolveEntry nodes)) := by
  induction entries with
  | nil =>
    intro acc _ _ _
    simp [buildDlAux]
  | cons e rest ih =>
    intro acc hwf hdisj hnodup
    obtain ⟨hd, hu, hm⟩ := hwf e (List.mem_cons_self e rest)
    obtain ⟨h, hh⟩ := Option.ne_none_iff_exists'.mp hd
    obtain ⟨u, hu2⟩ := Option.ne_none_iff_exists'.mp hu
    obtain ⟨m, hm2⟩ := Option.ne_none_iff_exists'.mp hm
    have hfm2 : List.filterMap DlEntry.dhash (e :: rest) =
        h :: rest.filterMap DlEntry.dhash := by
      simp [List.filterMap_cons, hh]
    rw [hfm2] at hnodup
    have hnodup' : (rest.filterMap DlEntry.dhash).Nodup :=
      (List.nodup_cons.mp hnodup).2
    have hnotin : h ∉ rest.filterMap DlEntry.dhash :=
      (List.nodup_cons.mp hnodup).1
    have hwf' : ∀ e2 ∈ rest, e2.dhash ≠ none ∧ e2.url ≠ none ∧ e2.mbps ≠ none :=
      fun e2 he2 => hwf e2 (List.mem_cons_of_mem _ he2)
    unfold buildDlAux
    rw [hh, hu2, hm2]
    dsimp only
    cases hfm : firstMatch nodes u with
    | none =>
      dsimp only
      have hres : resolveEntry nodes e = none := by
        simp [resolveEntry, hh, hu2, hm2, hfm]
      have hdisj' : ∀ e2 ∈ rest, ∀ h2 : String, e2.dhash = some h2 →
          ∀ p ∈ acc, p.1.1 ≠ h2 :=
        fun e2 he2 h2 hh2 p hp => hdisj e2 (List.mem_cons_of_mem _ he2) h2 hh2 p hp
      rw [ih acc hwf' hdisj' hnodup']
      simp [List.filterMap_cons, hres]
    | some n =>
      dsimp only
      have hres : resolveEntry nodes e = some ((h, n.nodeId), m) := by
        simp [resolveEntry, hh, hu2, hm2, hfm]
      have hfreshacc : ∀ p ∈ acc, p.1 ≠ (h, n.nodeId) := by
        intro p hp hcontra
        exact hdisj e (List.mem_cons_self e rest) h hh p hp (by rw [hcontra])
      have hdisj' : ∀ e2 ∈ rest, ∀ h2 : String, e2.dhash = some h2 →
          ∀ p ∈ acc ++ [((h, n.nodeId), m)], p.1.1 ≠ h2 := by
        intro e2 he2 h2 hh2 p hp
        rcases List.mem_append.mp hp with hp2 | hp2
        · exact hdisj e2 (List.mem_cons_of_mem _ he2) h2 hh2 p hp2
        · have hpv : p = ((h, n.nodeId), m) := by simpa using hp2
          rw [hpv]
          intro hcontra
          have hcontra2 : h = h2 := hcontra
          rw [hcontra2] at hnotin
          exact hnotin (List.mem_filterMap.mpr ⟨e2, he2, hh2⟩)
      rw [dinsert_fresh acc (h, n.nodeId) m hfreshacc]
      rw [ih (acc ++ [((h, n.nodeId), m)]) hwf' hdisj' hnodup']
      simp [List.filterMap_cons, hres, List.append_assoc]

lemma resolveEntry_some {nodes : List MNode} {e : DlEntry}
    {p : (String × Nat) × Int} (h : resolveEntry nodes e = some p) :
    ∃ (h2 : String) (u : String) (m : Int) (n : MNode),
      e.dhash = some h2 ∧ e.url = some u ∧ e.mbps = some m ∧
      firstMatch nodes u = some n ∧ p = ((h2, n.nodeId), m) := by
  unfold resolveEntry at h
  cases hd : e.dhash with
  | none =>
    rw [hd] at h
    exact absurd h (by simp)
  | some h2 =>
    cases hu : e.url with
    | none =>
      rw [hd, hu] at h
      exact absurd h (by simp)
    | some u =>
      cases hm : e.mbps with
      | none =>
        rw [hd, hu, hm] at h
        exact absurd h (by simp)
      | some m =>
        rw [hd, hu, hm] at h
        dsimp only at h
        cases hf : firstMatch nodes u with
        | none =>
          rw [hf] at h
          exact absurd h (by simp)
        | some n =>
          rw [hf] at h
          dsimp only at h
          exact ⟨h2, u, m, n, rfl, rfl, rfl, hf, (Option.some.inj h).symm⟩

lemma filterMap_nodup_unique {α β : Type} (f : α → Option β) {l : List α}
    (hnd : (l.filterMap f).Nodup) {a b : α} {h : β}
    (ha : a ∈ l) (hb : b ∈ l) (hfa : f a = some h) (hfb : f b = some h) :
    a = b := by
  induction l with
  | nil => exact absurd ha (List.not_mem_nil a)
  | cons x t ih =>
    rcases List.mem_cons.mp ha with rfl | ha2
    · rcases List.mem_cons.mp hb with rfl | hb2
      · rfl
      · have hmem : h ∈ t.filterMap f := List.mem_filterMap.mpr ⟨b, hb2, hfb⟩
        have heq : List.filterMap f (a :: t) = h :: t.filterMap f := by
          simp [List.filterMap_cons, hfa]
        rw [heq] at hnd
        exact ((List.nodup_cons.mp hnd).1 hmem).elim
    · rcases List.mem_cons.mp hb with rfl | hb2
      · have hmem : h ∈ t.filterMap f := List.mem_filterMap.mpr ⟨a, ha2, hfa⟩
        have heq : List.filterMap f (b :: t) = h :: t.filterMap f := by
          simp [List.filterMap_cons, hfb]
        rw [heq] at hnd
        exact ((List.nodup_cons.mp hnd).1 hmem).elim
      · have hnd' : (t.filterMap f).Nodup := by
          cases hfx : f x with
          | none =>
            rw [show List.filterMap f (x :: t) = t.filterMap f from by
              simp [List.filterMap_cons, hfx]] at hnd
            exact hnd
          | some y =>
            rw [show List.filterMap f (x :: t) = y :: t.filterMap f from by
              simp [List.filterMap_cons, hfx]] at hnd
            exact (List.nodup_cons.mp hnd).2
        exact ih hnd' ha2 hb2

/-- A `report_transfers` message whose reported url embeds another node's
download-url base as a proper substring (a query parameter), without that
base being a prefix of the url. -/
def msgRep : Msg :=
  [("action", JVal.str "report_transfers"),
   ("dls", JVal.dicts [⟨some "H", some "http://evil/?u=http://p1/", some 3⟩]),
   ("ul_count", JVal.int 0),
   ("ul_times", JVal.numlist [])]

/-- C4 counterexample: the code resolves the sender by *substring*
containment (`n.client.dl_url.replace('{hash}','') in dl['url']`), not by
the prefix rule the claim states.  The url
`http://evil/?u=http://p1/` does not start with node 1's stripped
template `http://p1/` (the spec's prefix rule matches no node), yet the
code's substring rule matches node 1 and the download is recorded under
node 1 in the reporting node's active downloads. -/
theorem claim_C4_counterexample :
    firstMatchSpec srvJ.nodes "http://evil/?u=http://p1/" = none ∧
    firstMatch srvJ.nodes "http://evil/?u=http://p1/" = some ndEx ∧
    findNode (handleClientMsg srvJ peerJ msgRep).srv 1 =
      some ⟨1, "p1", false, {"A"}, JVal.int 2, JVal.int 2, [(("H", 1), 3)],
            JVal.int 0, [], "http://p1/{hash}", []⟩ := by
  exact ⟨by decide, by decide, by decide⟩

/-- C4 (amended): for every entry of `report_transfers.dls` the sender
node is resolved by testing whether the candidate's `dl_url` template
with `\x7bhash\x7d` stripped occurs as a *substring* of the entry's reported
url (python `in`), not as a prefix; the first matching node in the
current node list wins; an entry matching no node is omitted from the
reporting node's active downloads, only logged, and the peer still gets
the single non-error `ok` reply. -/
theorem claim_C4_amended (srv : SrvState) (peer : PeerState) (msg : Msg)
    (nid : Nat) (nd : MNode) (entries : List DlEntry) (ulc : Int)
    (ts : List Int) (mu md : Int)
    (haction : pyGet msg "action" = JVal.str "report_transfers")
    (hnode : peer.node = some nid)
    (hfind : findNode srv nid = some nd)
    (hdls : pyGet msg "dls" = JVal.dicts entries)
    (hulc : pyGet msg "ul_count" = JVal.int ulc)
    (hult : pyGet msg "ul_times" = JVal.numlist ts)
    (hmu : nd.maxUls = JVal.int mu) (hmd : nd.maxDls = JVal.int md)
    (hwf : ∀ e ∈ entries, e.dhash ≠ none ∧ e.url ≠ none ∧ e.mbps ≠ none)
    (hnodup : (entries.filterMap DlEntry.dhash).Nodup) :
    (handleClientMsg srv peer msg).frames =
      [Frame.ok (JVal.str "Transfer status updated")] ∧
    (deliverLoop (handleClientMsg srv peer msg).frames).2 = false ∧
    ∃ nd2 : MNode, findNode (handleClientMsg srv peer msg).srv nid = some nd2 ∧
      nd2.activeDls = entries.filterMap (resolveEntry srv.nodes) ∧
      ∀ e ∈ entries, ∀ (h u : String) (m : Int),
        e.dhash = some h → e.url = some u → e.mbps = some m →
        (∀ n, firstMatch srv.nodes u = some n →
          ((h, n.nodeId), m) ∈ nd2.activeDls) ∧
        (firstMatch srv.nodes u = none →
          ∀ (nid2 : Nat) (m2 : Int), ((h, nid2), m2) ∉ nd2.activeDls) := by
  have hbuild : buildDlAux srv.nodes [] entries =
      Except.ok (entries.filterMap (resolveEntry srv.nodes)) := by
    have := buildDlAux_eq srv.nodes entries [] hwf
      (fun e _ h _ p hp => absurd hp (List.not_mem_nil p)) hnodup
    simpa using this
  obtain ⟨hfr, hpe, hfn⟩ := handleReport_eval srv peer msg nid nd entries ulc
    ts (entries.filterMap (resolveEntry srv.nodes)) mu md haction hnode hfind
    hdls hulc hult hmu hmd hbuild
  refine ⟨hfr, by rw [hfr]; rfl, ?_⟩
  refine ⟨updateSpeed (setActiveTransfers nd
      (entries.filterMap (resolveEntry srv.nodes)) (JVal.int ulc)) ts,
    hfn, rfl, ?_⟩
  intro e he h u m hdh hur hmb
  constructor
  · intro n hfm
    show ((h, n.nodeId), m) ∈ entries.filterMap (resolveEntry srv.nodes)
    refine List.mem_filterMap.mpr ⟨e, he, ?_⟩
    unfold resolveEntry
    rw [hdh, hur, hmb]
    dsimp only
    rw [hfm]
  · intro hnone nid2 m2 hmem
    have hmem2 : ((h, nid2), m2) ∈
        entries.filterMap (resolveEntry srv.nodes) := hmem
    obtain ⟨e2, he2, hre⟩ := List.mem_filterMap.mp hmem2
    obtain ⟨h2, u2, m3, n2, hd2, hu2, hm2, hf2, hp2⟩ := resolveEntry_some hre
    have hh2 : h2 = h := by
      have := congrArg (fun q => q.1.1) hp2
      exact this.symm
    rw [hh2] at hd2
    have heq : e2 = e :=
      filterMap_nodup_unique DlEntry.dhash hnodup he2 he hd2 hdh
    rw [heq] at hu2
    rw [hur] at hu2
    have hu2s : u2 = u := (Option.some.inj hu2).symm
    rw [hu2s] at hf2
    rw [hnone] at hf2
    exact Option.noConfusion hf2

/-- Witness for C4 (amended) at the concrete misattributing report. -/
theorem claim_C4_amended_witness :
    (handleClientMsg srvJ peerJ msgRep).frames =
      [Frame.ok (JVal.str "Transfer status updated")] :=
  (claim_C4_amended srvJ peerJ msgRep 1 ndEx
    [⟨some "H", some "http://evil/?u=http://p1/", some 3⟩] 0 [] 2 2
    rfl rfl rfl rfl rfl rfl rfl rfl (by decide) (by decide)).1

/-- C3: `replace_sync_batch` with the currently authoritative batch is a
no-op (state unchanged, so no queue receives a frame); with a different
batch it installs the batch, resets the universe to the new chunk hashes,
sets the replan trigger, and maps the node list so that the seed node's
hashes become exactly the new universe while every other node keeps only
the intersection of its hashes with the new universe and gets exactly one
`new_batch` frame appended to its send queue. -/
theorem claim_C3_replace_sync_batch (st : SrvState) (nb : Batch) :
    (st.batch = some nb → replaceSyncBatch st nb = st) ∧
    (st.batch ≠ some nb →
      (replaceSyncBatch st nb).batch = some nb ∧
      (replaceSyncBatch st nb).univ = chunkHashes nb ∧
      (replaceSyncBatch st nb).replan = true ∧
      (replaceSyncBatch st nb).nodes = st.nodes.map (fun n =>
        if n.nodeId = st.seedId then { n with hashes := chunkHashes nb }
        else { n with hashes := n.hashes ∩ chunkHashes nb,
                      queue := n.queue ++ [Frame.newBatch nb] })) := by
  constructor
  · intro h
    unfold replaceSyncBatch
    rw [if_pos h]
  · intro h
    unfold replaceSyncBatch
    rw [if_neg h]
    dsimp only
    refine ⟨rfl, rfl, rfl, ?_⟩
    rw [List.map_map, List.map_map]
    apply List.map_congr_left
    intro n _
    dsimp only [Function.comp, addHashes]
    by_cases hs : n.nodeId = st.seedId
    · rw [if_pos hs, if_neg (not_not_intro hs), if_pos hs]
      show ({ n with hashes := chunkHashes nb ∩ chunkHashes nb } : MNode) =
        { n with hashes := chunkHashes nb }
      exact congrArg (fun h2 => ({ n with hashes := h2 } : MNode))
        (Finset.inter_self (chunkHashes nb))
    · rw [if_neg hs, if_pos hs, if_neg hs]

/-- Witness for C3: the no-op branch at the authoritative batch, and the
replan trigger of the mutating branch at a fresh batch. -/
theorem claim_C3_replace_sync_batch_witness :
    replaceSyncBatch srvJ exBatch = srvJ ∧
    (replaceSyncBatch srvJ (Batch.mk [⟨"B", "g.bin", 0, 4⟩])).replan = true :=
  ⟨(claim_C3_replace_sync_batch srvJ exBatch).1 rfl,
   ((claim_C3_replace_sync_batch srvJ
      (Batch.mk [⟨"B", "g.bin", 0, 4⟩])).2 (by decide)).2.2.1⟩

lemma startsL_iff {α : Type} [DecidableEq α] (l pre : List α) :
    startsL l pre = true ↔ ∃ t, l = pre ++ t := by
  induction pre generalizing l with
  | nil =>
    simp only [startsL, List.nil_append]
    exact ⟨fun _ => ⟨l, rfl⟩, fun _ => trivial⟩
  | cons b bs ih =>
    cases l with
    | nil =>
      simp only [startsL]
      constructor
      · intro hc
        exact absurd hc (by decide)
      · rintro ⟨t, ht⟩
        exact List.noConfusion ht
    | cons a as =>
      unfold startsL
      by_cases hab : a = b
      · rw [if_pos hab, ih as]
        constructor
        · rintro ⟨t, rfl⟩
          exact ⟨t, by rw [hab]; rfl⟩
        · rintro ⟨t, ht⟩
          injection ht with h1 h2
          exact ⟨t, h2⟩
      · rw [if_neg hab]
        constructor
        · intro hc
          exact absurd hc (by decide)
        · rintro ⟨t, ht⟩
          injection ht with h1 h2
          exact absurd h1 hab

/-- C9: `resolve_and_sanitize` returns a path only when it is a strict
descendant of the resolved basedir (the returned path extends the basedir
by a nonempty suffix, and exists whenever `must_exist`); a resolution
that is not strictly inside the basedir — in particular one equal to the
basedir itself, such as `"."` — raises `PermissionError`; with
`must_exist`, an in-basedir path that does not exist raises
`FileNotFoundError`. -/
theorem claim_C9_resolve_and_sanitize (basedir rel : List String)
    (mustExist : Bool) (pathExists : List String → Bool) :
    (∀ p, resolveAndSanitize basedir rel mustExist pathExists = Except.ok p →
      ∃ t, t ≠ [] ∧ p = normComponents basedir ++ t ∧
        p = resolvedPath basedir rel ∧
        (mustExist = true → pathExists p = true)) ∧
    (strictlyInside (normComponents basedir) (resolvedPath basedir rel) = false →
      resolveAndSanitize basedir rel mustExist pathExists =
        Except.error FErr.permission) ∧
    (resolvedPath basedir rel = normComponents basedir →
      resolveAndSanitize basedir rel mustExist pathExists =
        Except.error FErr.permission) ∧
    (strictlyInside (normComponents basedir) (resolvedPath basedir rel) = true →
      mustExist = true → pathExists (resolvedPath basedir rel) = false →
      resolveAndSanitize basedir rel mustExist pathExists =
        Except.error FErr.notFound) := by
  refine ⟨?_, ?_, ?_, ?_⟩
  · intro p hok
    unfold resolveAndSanitize at hok
    dsimp only at hok
    cases hb : strictlyInside (normComponents basedir) (resolvedPath basedir rel) with
    | false =>
      rw [hb] at hok
      simp at hok
    | true =>
      rw [hb] at hok
      cases hme : mustExist && !pathExists (resolvedPath basedir rel) with
      | true =>
        rw [hme] at hok
        simp at hok
      | false =>
        rw [hme] at hok
        simp only [Bool.not_true, if_false, Bool.false_eq_true] at hok
        have hp : resolvedPath basedir rel = p := by
          simpa using hok
        have hb2 := hb
        unfold strictlyInside at hb2
        simp only [Bool.and_eq_true, decide_eq_true_eq] at hb2
        obtain ⟨hstart, hne⟩ := hb2
        obtain ⟨t, ht⟩ := (startsL_iff _ _).mp hstart
        refine ⟨t, ?_, ?_, hp.symm, ?_⟩
        · intro h0
          rw [h0, List.append_nil] at ht
          exact hne ht
        · rw [← hp]
          exact ht
        · intro hm
          rw [← hp]
          cases hpe : pathExists (resolvedPath basedir rel) with
          | true => rfl
          | false =>
            rw [hm, hpe] at hme
            simp at hme
  · intro hin
    simp [resolveAndSanitize, hin]
  · intro heq
    have hin : strictlyInside (normComponents basedir) (resolvedPath basedir rel)
        = false := by
      simp [strictlyInside, heq]
    simp [resolveAndSanitize, hin]
  · intro hb hm hpe
    simp [resolveAndSanitize, hb, hm, hpe]

/-- Witness for C9: a path resolving to the basedir itself is refused, and
a missing in-basedir path with `must_exist` raises not-found. -/
theorem claim_C9_resolve_and_sanitize_witness :
    resolveAndSanitize ["base"] ["."] false (fun _ => false) =
      Except.error FErr.permission ∧
    resolveAndSanitize ["base"] ["sub"] true (fun _ => false) =
      Except.error FErr.notFound :=
  ⟨(claim_C9_resolve_and_sanitize ["base"] ["."] false
      (fun _ => false)).2.2.1 (by decide),
   (claim_C9_resolve_and_sanitize ["base"] ["sub"] true
      (fun _ => false)).2.2.2 (by decide) rfl rfl⟩

/-- C10: `copy_chunk_locally` returns `True` immediately — opening and
modifying no file — whenever source and target chunk have the same path
and the same position, even with differing hash fields (the equality
check precedes the hash check); when path or position differ and the
hashes differ, it raises `ValueError` before opening either file. -/
theorem claim_C10_copy_chunk_locally (a b : FileChunk) :
    (a.path = b.path → a.pos = b.pos →
      copyChunkLocally a b = (Except.ok (some true), [])) ∧
    (¬(a.path = b.path ∧ a.pos = b.pos) → a.hash ≠ b.hash →
      copyChunkLocally a b =
        (Except.error "From and To chunks must have same hash.", [])) := by
  constructor
  · intro h1 h2
    unfold copyChunkLocally
    rw [if_pos ⟨h1, h2⟩]
  · intro hne hh
    unfold copyChunkLocally
    rw [if_neg hne, if_pos hh]

/-- Witness for C10: same path and position with different hashes still
returns `True` untouched; different positions with different hashes fail
with the `ValueError` message and no file operation. -/
theorem claim_C10_copy_chunk_locally_witness :
    copyChunkLocally ⟨"A", "f.bin", 0, 4⟩ ⟨"B", "f.bin", 0, 4⟩ =
      (Except.ok (some true), []) ∧
    copyChunkLocally ⟨"A", "f.bin", 0, 4⟩ ⟨"B", "f.bin", 4, 4⟩ =
      (Except.error "From and To chunks must have same hash.", []) :=
  ⟨(claim_C10_copy_chunk_locally ⟨"A", "f.bin", 0, 4⟩
      ⟨"B", "f.bin", 0, 4⟩).1 rfl rfl,
   (claim_C10_copy_chunk_locally ⟨"A", "f.bin", 0, 4⟩
      ⟨"B", "f.bin", 4, 4⟩).2 (by decide) (by decide)⟩
